import Mathlib

/-!
# Verification of the configuration validators

A shallow embedding of the three configuration validators of this
repository:

* `config/models/validate.py`   (namespace `Models`)
* `config/layers/validate_layers.py` (namespace `Layers`)
* `config/styles/validate_styles.py` (namespace `Styles`)

Parsed YAML/JSON documents are modelled by the inductive type `Yaml`
(scalars are `null`, booleans, integers and strings; containers are
lists and string-keyed mappings, which covers every document the
validators index into).  Python exceptions that the validators can
raise while inspecting a document (`TypeError` from an unhashable set
probe or an unordered comparison, `AttributeError` from calling a
string method on a non-string) are modelled with `Except PyErr`; a
`.error` result corresponds to the Python process dying with an
uncaught exception.
-/

/-- A parsed YAML/JSON value.  Python `bool` is kept separate from
`int`; the numeric-conflation of Python (`True == 1`,
`isinstance(True, int)`) is restored by the helpers `pyEq`, `isPyInt`
and `intVal` below.  Floats are not needed by any claim and are not in
the universe. -/
inductive Yaml where
  | null
  | bool (b : Bool)
  | int (n : Int)
  | str (s : String)
  | list (l : List Yaml)
  | map (kvs : List (String × Yaml))

namespace Yaml

/-- Python truthiness of a value (`if value:`). -/
def truthy : Yaml → Bool
  | .null => false
  | .bool b => b
  | .int n => decide (n ≠ 0)
  | .str s => decide (s ≠ "")
  | .list l => !l.isEmpty
  | .map m => !m.isEmpty

/-- Python `type(v).__name__`. -/
def typeName : Yaml → String
  | .null => "NoneType"
  | .bool _ => "bool"
  | .int _ => "int"
  | .str _ => "str"
  | .list _ => "list"
  | .map _ => "dict"

/-- `isinstance(v, dict)`. -/
def isMapV : Yaml → Bool
  | .map _ => true
  | _ => false

/-- `isinstance(v, list)`. -/
def isListV : Yaml → Bool
  | .list _ => true
  | _ => false

/-- `isinstance(v, str)`. -/
def isStr : Yaml → Bool
  | .str _ => true
  | _ => false

/-- `isinstance(v, bool)` (strict: Python bool only). -/
def isBool : Yaml → Bool
  | .bool _ => true
  | _ => false

/-- `isinstance(v, int)`.  In Python `bool` is a subclass of `int`. -/
def isPyInt : Yaml → Bool
  | .int _ => true
  | .bool _ => true
  | _ => false

/-- `isinstance(v, (int, float))`; floats are not in the universe, so
this coincides with `isPyInt`. -/
def isPyNumber (v : Yaml) : Bool := v.isPyInt

/-- Numeric value of an int-like value (`True` counts as 1). -/
def intVal : Yaml → Int
  | .int n => n
  | .bool b => if b then 1 else 0
  | _ => 0

/-- Python `v is None`. -/
def isNull : Yaml → Bool
  | .null => true
  | _ => false

/-- A value Python can hash (usable as a set element / dict key);
lists and dicts raise `TypeError: unhashable type`. -/
def scalarY : Yaml → Bool
  | .list _ => false
  | .map _ => false
  | _ => true

end Yaml

/-- Dictionary lookup on a string key (`kvs[k]` when present). -/
def getKey? (kvs : List (String × Yaml)) (k : String) : Option Yaml :=
  (kvs.find? (fun p => p.1 == k)).map (fun p => p.2)

/-- Python `k in d` for a string key on a dict. -/
def hasKey (kvs : List (String × Yaml)) (k : String) : Bool :=
  (getKey? kvs k).isSome

/-- Python `d.get(k)` (missing key gives `None`). -/
def pyGet (kvs : List (String × Yaml)) (k : String) : Yaml :=
  (getKey? kvs k).getD .null

/-- Python `d.get(k, default)`. -/
def pyGetD (kvs : List (String × Yaml)) (k : String) (d : Yaml) : Yaml :=
  (getKey? kvs k).getD d

/-- Python `k in v` for a string key when `v` is known to be checked
as a mapping (false for non-mappings). -/
def yamlHasKey (v : Yaml) (k : String) : Bool :=
  match v with
  | .map m => hasKey m k
  | _ => false

mutual

/-- Python `repr(v)` (strings are shown with single quotes; the exact
quote-selection subtleties of Python are irrelevant to every claim). -/
def pyRepr : Yaml → String
  | .null => "None"
  | .bool true => "True"
  | .bool false => "False"
  | .int n => toString n
  | .str s => "'" ++ s ++ "'"
  | .list l => "[" ++ pyReprList l ++ "]"
  | .map m => "\x7b" ++ pyReprKVs m ++ "\x7d"

def pyReprList : List Yaml → String
  | [] => ""
  | [v] => pyRepr v
  | v :: rest => pyRepr v ++ ", " ++ pyReprList rest

def pyReprKVs : List (String × Yaml) → String
  | [] => ""
  | [(k, v)] => "'" ++ k ++ "': " ++ pyRepr v
  | (k, v) :: rest => "'" ++ k ++ "': " ++ pyRepr v ++ ", " ++ pyReprKVs rest

end

/-- Python `str(v)` — as interpolated into f-string messages. -/
def pyStr : Yaml → String
  | .str s => s
  | v => pyRepr v

mutual

/-- Python `==` on parsed values (numeric conflation of bools and
ints; dicts compare by key set and values; never raises). -/
def pyEq : Yaml → Yaml → Bool
  | .str a, .str b => a == b
  | .list a, .list b => pyEqList a b
  | .map a, .map b => (a.length == b.length) && pyEqKVs a b
  | .null, .null => true
  | a, b => a.isPyInt && b.isPyInt && (a.intVal == b.intVal)

def pyEqList : List Yaml → List Yaml → Bool
  | [], [] => true
  | x :: xs, y :: ys => pyEq x y && pyEqList xs ys
  | _, _ => false

def pyEqKVs : List (String × Yaml) → List (String × Yaml) → Bool
  | [], _ => true
  | (k, v) :: rest, b =>
      (match getKey? b k with
       | some w => pyEq v w
       | none => false) && pyEqKVs rest b

end

/-- Python exceptions the validators can raise while inspecting a
document.  `.error e` models the process dying with traceback. -/
inductive PyErr where
  | typeError
  | attributeError
deriving DecidableEq

mutual

/-- Python three-way comparison on (possibly unequal) values, as used
by `<`/`>=`: numbers compare numerically (bools as 0/1), strings
lexicographically, lists lexicographically element-wise; any other
pairing raises `TypeError`. -/
def pyCmp : Yaml → Yaml → Except PyErr Ordering
  | .str a, .str b => .ok (compare a b)
  | .list a, .list b => pyListCmp a b
  | a, b =>
      if a.isPyInt && b.isPyInt then .ok (compare a.intVal b.intVal)
      else .error .typeError

/-- Python list comparison: find the first index where elements differ
under `==`, compare there; otherwise compare lengths. -/
def pyListCmp : List Yaml → List Yaml → Except PyErr Ordering
  | [], [] => .ok .eq
  | [], _ :: _ => .ok .lt
  | _ :: _, [] => .ok .gt
  | x :: xs, y :: ys => if pyEq x y then pyListCmp xs ys else pyCmp x y

end

/-- Python `a >= b`. -/
def pyGE (a b : Yaml) : Except PyErr Bool := do
  let o ← pyCmp a b
  .ok (o != Ordering.lt)

/-- Python `v not in S` where `S` is a set of string constants;
unhashable values (lists, dicts) raise `TypeError`. -/
def pyNotInStrSet (v : Yaml) (s : List String) : Except PyErr Bool :=
  match v with
  | .list _ => .error .typeError
  | .map _ => .error .typeError
  | .str t => .ok (!s.contains t)
  | _ => .ok true

/-- Python `v in S` where `S` is a set of parsed values;
unhashable `v` raises `TypeError`. -/
def pySetMem (v : Yaml) (s : List Yaml) : Except PyErr Bool :=
  match v with
  | .list _ => .error .typeError
  | .map _ => .error .typeError
  | _ => .ok (s.any (fun w => pyEq v w))

/-- Python `S.add(v)` on a set of parsed values. -/
def pySetAdd (v : Yaml) (s : List Yaml) : Except PyErr (List Yaml) :=
  match v with
  | .list _ => .error .typeError
  | .map _ => .error .typeError
  | _ => .ok (if s.any (fun w => pyEq v w) then s else s ++ [v])

/-- `n` is a contiguous leading segment of `h`. -/
def charsHasPre : List Char → List Char → Bool
  | [], _ => true
  | _ :: _, [] => false
  | c :: cs, d :: ds => c == d && charsHasPre cs ds

/-- `n` occurs contiguously somewhere in `h`. -/
def charsHasSub (n : List Char) : List Char → Bool
  | [] => charsHasPre n []
  | d :: ds => charsHasPre n (d :: ds) || charsHasSub n ds

/-- Lexicographic (code-point) order on char lists, as Python compares
strings. -/
def charsLe : List Char → List Char → Bool
  | [], _ => true
  | _ :: _, [] => false
  | a :: as, b :: bs => if a = b then charsLe as bs else decide (a < b)

/-- Python `a <= b` on strings. -/
def strLeB (a b : String) : Bool := charsLe a.data b.data

/-- `sep.join(l)`. -/
def joinWith (sep : String) : List String → String
  | [] => ""
  | [x] => x
  | x :: rest => x ++ sep ++ joinWith sep rest

/-- Insertion into a sorted list of strings. -/
def insSorted (s : String) : List String → List String
  | [] => [s]
  | t :: ts => if strLeB s t then s :: t :: ts else t :: insSorted s ts

/-- Python `sorted(S)` for a set of strings. -/
def sortStrs (l : List String) : List String := l.foldr insSorted []

/-- Python `', '.join(sorted(S))`. -/
def joinSorted (l : List String) : String := joinWith ", " (sortStrs l)

/-- Python `f"{S}"` for a set of strings.  The CPython rendering order
is hash-seed dependent; here it is modelled in declaration order.  No
claim depends on these message texts. -/
def renderPySet (l : List String) : String :=
  "\x7b" ++ joinWith ", " (l.map (fun s => "'" ++ s ++ "'")) ++ "\x7d"

/-- Python `s.startswith(p)` on strings. -/
def strStarts (s p : String) : Bool := charsHasPre p.data s.data

/-- The text after the last `.` of `path`: Python `path.split(".")[-1]`. -/
def lastFieldAux : List Char → List Char → List Char
  | [], acc => acc
  | c :: rest, acc => if c = '.' then lastFieldAux rest [] else lastFieldAux rest (acc ++ [c])

def lastField (path : String) : String := String.mk (lastFieldAux path.data [])

/-- Python `key in container` for a string key: dict key membership,
list element membership, substring test on strings; `TypeError`
otherwise. -/
def pyContainsStr (container : Yaml) (key : String) : Except PyErr Bool :=
  match container with
  | .map kvs => .ok (hasKey kvs key)
  | .list l => .ok (l.any (fun w => pyEq (.str key) w))
  | .str s => .ok (charsHasSub key.data s.data)
  | _ => .error .typeError

/-- Python iteration over a value: lists yield elements, strings yield
characters, dicts yield their keys; anything else raises `TypeError`. -/
def pyIter : Yaml → Except PyErr (List Yaml)
  | .list l => .ok l
  | .str s => .ok (s.data.map (fun c => .str (String.singleton c)))
  | .map kvs => .ok (kvs.map (fun p => .str p.1))
  | _ => .error .typeError

/-- Python `v.startswith(p)`; non-strings lack the attribute. -/
def pyStartsWith (v : Yaml) (p : String) : Except PyErr Bool :=
  match v with
  | .str s => .ok (strStarts s p)
  | _ => .error .attributeError

/-- Python `d.get(k, default)` on an arbitrary value: non-dicts raise
`AttributeError`. -/
def pyGetAttrD (v : Yaml) (k : String) (d : Yaml) : Except PyErr Yaml :=
  match v with
  | .map kvs => .ok (pyGetD kvs k d)
  | _ => .error .attributeError


/-- `'a' <= c <= 'z'`. -/
def isLowerAZ (c : Char) : Bool := decide ('a' ≤ c) && decide (c ≤ 'z')

/-- A character of the `[a-z0-9_]` class. -/
def isModelIdChar (c : Char) : Bool :=
  isLowerAZ c || (decide ('0' ≤ c) && decide (c ≤ '9')) || c == '_'

/-- The body of the regex `^[a-z][a-z0-9_]*$` (anchors aside). -/
def modelIdCore : List Char → Bool
  | [] => false
  | c :: cs => isLowerAZ c && cs.all isModelIdChar

/-- Python `re.match(r"^body$", s)` as a whole-string test: `$` also
matches just before one trailing newline (CPython semantics), and
neither body used here can consume a newline. -/
def matchWithDollar (core : List Char → Bool) (s : String) : Bool :=
  core s.data ||
    (match s.data.getLast? with
     | some c => c == '\n' && core s.data.dropLast
     | none => false)

/-- `re.match(r"^[a-z][a-z0-9_]*$", s)` succeeding. -/
def matchModelId (s : String) : Bool := matchWithDollar modelIdCore s

/-- A `[0-9A-Fa-f]` character. -/
def isHexDigitChar (c : Char) : Bool :=
  (decide ('0' ≤ c) && decide (c ≤ '9')) || (decide ('a' ≤ c) && decide (c ≤ 'f'))
    || (decide ('A' ≤ c) && decide (c ≤ 'F'))

/-- The body of `HEX_COLOR_PATTERN = ^#[0-9A-Fa-f]{6}([0-9A-Fa-f]{2})?$`. -/
def hexColorCore : List Char → Bool
  | '#' :: rest =>
      (rest.length == 6 || rest.length == 8) && rest.all isHexDigitChar
  | _ => false

/-- `HEX_COLOR_PATTERN.match(s)` succeeding (with the `$` semantics of
`matchWithDollar`). -/
def matchHexColor (s : String) : Bool := matchWithDollar hexColorCore s


/-! ## The model configuration validator (`config/models/validate.py`) -/

namespace Models

/-- An entry of `ModelValidator.errors` / `.warnings`: `(path, message)`.
The severity is carried by which list the entry is in, as in the source. -/
abbrev Err := String × String

def VALID_DIMENSION_TYPES : List String := ["forecast", "observation"]

def VALID_SOURCE_TYPES : List String :=
  ["aws_s3", "aws_s3_goes", "aws_s3_grib2", "local", "http"]

def VALID_PROJECTION_TYPES : List String :=
  ["geographic", "latlon", "geostationary", "lambert_conformal", "mercator"]

def VALID_LEVEL_TYPES : List String :=
  ["surface", "height_above_ground", "height_above_ground_layer", "isobaric",
   "mean_sea_level", "entire_atmosphere", "low_cloud_layer", "middle_cloud_layer",
   "high_cloud_layer", "cloud_top", "top_of_atmosphere", "depth_below_surface",
   "boundary_layer", "tropopause"]

def VALID_STYLES : List String :=
  ["default", "temperature", "wind", "precipitation", "humidity", "atmospheric",
   "cape", "cloud", "visibility", "reflectivity", "precip_rate", "goes_visible",
   "goes_ir", "wind_barbs", "helicity", "lightning", "smoke", "radar"]

def VALID_CONVERSIONS : List String :=
  ["K_to_C", "K_to_F", "Pa_to_hPa", "Pa_to_mb", "m_to_km", "m_to_ft", "m_to_kft",
   "ms_to_kt", "ms_to_mph"]

/-- `ModelValidator._require_string` (source lines 555-575).  The
optional pattern carries its matcher together with the regex text used
by the fallback description. -/
def require_string (obj : List (String × Yaml)) (path : String)
    (patt : Option ((String → Bool) × String)) (patt_desc : Option String) :
    List Err :=
  let field := lastField path
  match getKey? obj field with
  | none => [(path, "Missing required field '" ++ field ++ "'")]
  | some v =>
      match v with
      | .str s =>
          match patt with
          | some p =>
              if p.1 s then []
              else [(path, patt_desc.getD ("Must match pattern: " ++ p.2))]
          | none => []
      | _ => [(path, "Must be a string")]

/-- `ModelValidator._optional_string` (lines 577-581). -/
def optional_string (obj : List (String × Yaml)) (path : String) : List Err :=
  let field := lastField path
  match getKey? obj field with
  | some v => if v.isStr then [] else [(path, "Must be a string")]
  | none => []

/-- `ModelValidator._optional_bool` (lines 583-587). -/
def optional_bool (obj : List (String × Yaml)) (path : String) : List Err :=
  let field := lastField path
  match getKey? obj field with
  | some v => if v.isBool then [] else [(path, "Must be a boolean (true/false)")]
  | none => []

/-- `ModelValidator._validate_model_section` (lines 156-178); pure. -/
def validate_model_section (data : List (String × Yaml)) : List Err × List Err :=
  match getKey? data "model" with
  | none => ([("model", "Missing required section 'model'")], [])
  | some mv =>
      match mv with
      | .map model =>
          (require_string model "model.id" (some (matchModelId, "^[a-z][a-z0-9_]*$"))
             (some "Must be lowercase alphanumeric with underscores, starting with letter")
           ++ require_string model "model.name" none none
           ++ optional_string model "model.description"
           ++ optional_bool model "model.enabled", [])
      | _ => ([("model", "Section must be a mapping")], [])

/-- `ModelValidator._validate_dimensions_section` (lines 180-225). -/
def validate_dimensions_section (data : List (String × Yaml)) :
    Except PyErr (List Err × List Err) :=
  match getKey? data "dimensions" with
  | none =>
      .ok ([], [("dimensions", "Missing 'dimensions' section - will infer from schedule.type")])
  | some dv =>
      match dv with
      | .map dims => do
          let dim_type := pyGet dims "type"
          let (e1, w1) ←
            if dim_type.isNull then
              pure (([] : List Err), [("dimensions.type", "Missing 'type' - will default to 'forecast'")])
            else do
              let nb ← pyNotInStrSet dim_type VALID_DIMENSION_TYPES
              pure ((if nb then
                  [("dimensions.type", "Invalid type '" ++ pyStr dim_type
                      ++ "'. Must be one of: " ++ joinSorted VALID_DIMENSION_TYPES)]
                else []), ([] : List Err))
          let w2 : List Err :=
            if pyEq dim_type (.str "forecast") then
              (if (pyGet dims "time").truthy then
                 [("dimensions.time", "Forecast models typically don't use TIME dimension (use RUN + FORECAST)")]
               else [])
            else if pyEq dim_type (.str "observation") then
              (if (pyGet dims "run").truthy || (pyGet dims "forecast").truthy then
                 [("dimensions.run/forecast", "Observation models typically don't use RUN/FORECAST dimensions (use TIME)")]
               else [])
            else []
          let e2 : List Err :=
            (["run", "forecast", "time", "elevation"].map (fun f =>
                match getKey? dims f with
                | some v => if v.isBool then [] else [("dimensions." ++ f, "Must be a boolean (true/false)")]
                | none => [])).flatten
          pure (e1 ++ e2, w1 ++ w2)
      | _ => .ok ([("dimensions", "Section must be a mapping")], [])

/-- `ModelValidator._validate_source_section` (lines 227-257).  Note
`source_type and source_type.startswith("aws_s3")` calls a string
method on whatever truthy value `type` holds. -/
def validate_source_section (data : List (String × Yaml)) :
    Except PyErr (List Err × List Err) :=
  match getKey? data "source" with
  | none => .ok ([("source", "Missing required section 'source'")], [])
  | some sv =>
      match sv with
      | .map source => do
          let source_type := pyGet source "type"
          let e1 ←
            if source_type.isNull then
              pure [("source.type", "Missing required field 'type'")]
            else do
              let nb ← pyNotInStrSet source_type VALID_SOURCE_TYPES
              pure (if nb then
                  [("source.type", "Invalid type '" ++ pyStr source_type
                      ++ "'. Must be one of: " ++ joinSorted VALID_SOURCE_TYPES)]
                else [])
          if source_type.truthy then do
            let sw ← pyStartsWith source_type "aws_s3"
            if sw then
              pure (e1 ++ (if hasKey source "bucket" then []
                  else [("source.bucket", "Missing required field 'bucket' for AWS S3 source")]),
                (if hasKey source "region" then []
                  else [("source.region", "Missing 'region' - will default to us-east-1")]))
            else pure (e1, [])
          else pure (e1, [])
      | _ => .ok ([("source", "Section must be a mapping")], [])

/-- `ModelValidator._validate_grid_section` (lines 259-310).  The bbox
range checks compare the raw values with `>=` after (only) recording
type errors for them. -/
def validate_grid_section (data : List (String × Yaml)) :
    Except PyErr (List Err × List Err) :=
  match getKey? data "grid" with
  | none => .ok ([("grid", "Missing required section 'grid'")], [])
  | some gv =>
      match gv with
      | .map grid => do
          let projection := pyGet grid "projection"
          let e1 ←
            if projection.isNull then
              pure [("grid.projection", "Missing required field 'projection'")]
            else do
              let nb ← pyNotInStrSet projection VALID_PROJECTION_TYPES
              pure (if nb then
                  [("grid.projection", "Invalid projection '" ++ pyStr projection
                      ++ "'. Must be one of: " ++ joinSorted VALID_PROJECTION_TYPES)]
                else [])
          let e2 ←
            match getKey? grid "bbox" with
            | none => pure ([] : List Err)
            | some bv =>
                match bv with
                | .map bbox => do
                    let fieldErrs :=
                      (["min_lon", "min_lat", "max_lon", "max_lat"].map (fun f =>
                          if !hasKey bbox f then
                            [("grid.bbox." ++ f, "Missing required field '" ++ f ++ "'")]
                          else if !(pyGet bbox f).isPyNumber then
                            [("grid.bbox." ++ f, "Must be a number")]
                          else [])).flatten
                    let lonErrs ←
                      if hasKey bbox "min_lon" && hasKey bbox "max_lon" then do
                        let ge ← pyGE (pyGet bbox "min_lon") (pyGet bbox "max_lon")
                        pure (if ge then [("grid.bbox", "min_lon must be less than max_lon")] else [])
                      else pure ([] : List Err)
                    let latErrs ←
                      if hasKey bbox "min_lat" && hasKey bbox "max_lat" then do
                        let ge ← pyGE (pyGet bbox "min_lat") (pyGet bbox "max_lat")
                        pure (if ge then [("grid.bbox", "min_lat must be less than max_lat")] else [])
                      else pure ([] : List Err)
                    pure (fieldErrs ++ lonErrs ++ latErrs)
                | _ => pure [("grid.bbox", "Must be a mapping with min_lon, min_lat, max_lon, max_lat")]
          let e3 : List Err :=
            if pyEq projection (.str "geostationary") && !hasKey grid "projection_params" then
              [("grid.projection_params", "Missing required 'projection_params' for geostationary projection")]
            else []
          pure (e1 ++ e2 ++ e3, [])
      | _ => .ok ([("grid", "Section must be a mapping")], [])

/-- `ModelValidator._validate_schedule_section` (lines 312-364); pure. -/
def validate_schedule_section (data : List (String × Yaml)) : List Err × List Err :=
  match getKey? data "schedule" with
  | none => ([("schedule", "Missing required section 'schedule'")], [])
  | some sv =>
      match sv with
      | .map schedule =>
          let schedule_type := pyGet schedule "type"
          let forecastErrs : List Err :=
            if !pyEq schedule_type (.str "observation") then
              (match getKey? schedule "cycles" with
               | none => []
               | some cv =>
                   match cv with
                   | .list cycles =>
                       (cycles.enum.map (fun p =>
                           if !p.2.isPyInt || decide (p.2.intVal < 0) || decide (p.2.intVal > 23) then
                             [("schedule.cycles[" ++ toString p.1 ++ "]",
                               "Invalid cycle hour: " ++ pyStr p.2 ++ ". Must be 0-23")]
                           else [])).flatten
                   | _ => [("schedule.cycles", "Must be a list of hours (0-23)")]) ++
              (match getKey? schedule "forecast_hours" with
               | none => []
               | some fv =>
                   match fv with
                   | .map fh =>
                       (["start", "end"].map (fun f =>
                           match getKey? fh f with
                           | none => [("schedule.forecast_hours." ++ f,
                               "Missing required field '" ++ f ++ "'")]
                           | some v =>
                               if !v.isPyInt then
                                 [("schedule.forecast_hours." ++ f, "Must be an integer")]
                               else [])).flatten
                   | .list _ => []
                   | _ => [("schedule.forecast_hours", "Must be a list or mapping with start/end/step")])
            else []
          let pollErrs : List Err :=
            match getKey? schedule "poll_interval_secs" with
            | none => []
            | some p =>
                if !p.isPyInt || decide (p.intVal ≤ 0) then
                  [("schedule.poll_interval_secs", "Must be a positive integer")]
                else []
          (forecastErrs ++ pollErrs, [])
      | _ => ([("schedule", "Section must be a mapping")], [])

/-- `ModelValidator._validate_retention_section` (lines 366-383); pure. -/
def validate_retention_section (data : List (String × Yaml)) : List Err × List Err :=
  match getKey? data "retention" with
  | none => ([], [("retention", "Missing 'retention' section - data will be kept indefinitely")])
  | some rv =>
      match rv with
      | .map retention =>
          (match getKey? retention "hours" with
           | none => ([], [])
           | some h =>
               if !h.isPyInt || decide (h.intVal ≤ 0) then
                 ([("retention.hours", "Must be a positive integer")], [])
               else ([], []))
      | _ => ([("retention", "Section must be a mapping")], [])

/-- `ModelValidator._validate_precaching_section` (lines 385-402); pure. -/
def validate_precaching_section (data : List (String × Yaml)) : List Err × List Err :=
  match getKey? data "precaching" with
  | none => ([], [])
  | some pv =>
      match pv with
      | .map precaching =>
          (optional_bool precaching "precaching.enabled" ++
           (match getKey? precaching "parameters" with
            | none => []
            | some v => if v.isListV then []
                else [("precaching.parameters", "Must be a list of parameter names")]), [])
      | _ => ([("precaching", "Section must be a mapping")], [])

/-- `ModelValidator._validate_levels` (lines 470-506), inner loop.
The source computes `has_value = "value" in level` but never reads it:
a level with neither `value` nor `values` produces no error. -/
def levelsLoop (path : String) : List Yaml → Nat → Except PyErr (List Err × List Err)
  | [], _ => .ok ([], [])
  | level :: rest, i =>
      let level_path := path ++ "[" ++ toString i ++ "]"
      match level with
      | .map lv => do
          let level_type := pyGet lv "type"
          let (tE, tW) ←
            if level_type.isNull then
              pure ([(level_path ++ ".type", "Missing required field 'type'")], ([] : List Err))
            else do
              let nb ← pyNotInStrSet level_type VALID_LEVEL_TYPES
              pure (([] : List Err),
                if nb then
                  [(level_path ++ ".type", "Unknown level type '" ++ pyStr level_type
                      ++ "'. Known types: " ++ joinSorted VALID_LEVEL_TYPES)]
                else [])
          let _has_value := hasKey lv "value"
          let vErrs : List Err :=
            if hasKey lv "values" then
              match pyGet lv "values" with
              | .list vs =>
                  if vs.isEmpty then [(level_path ++ ".values", "Must have at least one value")]
                  else []
              | _ => [(level_path ++ ".values", "Must be a list")]
            else []
          let (rE, rW) ← levelsLoop path rest (i + 1)
          pure (tE ++ vErrs ++ rE, tW ++ rW)
      | _ => do
          let (rE, rW) ← levelsLoop path rest (i + 1)
          pure ((level_path, "Each level must be a mapping") :: rE, rW)

/-- `ModelValidator._validate_levels` (lines 470-506). -/
def validate_levels (levels : Yaml) (path : String) : Except PyErr (List Err × List Err) :=
  match levels with
  | .list ls =>
      if ls.isEmpty then .ok ([(path, "Must have at least one level defined")], [])
      else levelsLoop path ls 0
  | _ => .ok ([(path, "Must be a list")], [])

/-- The per-parameter loop of `_validate_parameters_section`
(lines 419-468).  `seen` models the `seen_params` set: its membership
probe and `add` raise on unhashable names but have no other effect. -/
def paramsLoop : List Yaml → Nat → List Yaml → Except PyErr (List Err × List Err)
  | [], _, _ => .ok ([], [])
  | param :: rest, i, seen =>
      let path := "parameters[" ++ toString i ++ "]"
      match param with
      | .map p => do
          let name := pyGet p "name"
          let nameErrs : List Err :=
            if name.isNull then [(path ++ ".name", "Missing required field 'name'")]
            else if !name.isStr then [(path ++ ".name", "Must be a string")]
            else []
          let _ ← pySetMem name seen
          let seen' ← pySetAdd name seen
          let descErrs := optional_string p (path ++ ".description")
          let (lvlE, lvlW) ←
            if !hasKey p "levels" then
              pure ([(path ++ ".levels", "Missing required field 'levels'")], ([] : List Err))
            else validate_levels (pyGet p "levels") (path ++ ".levels")
          let styleW ←
            match getKey? p "style" with
            | none => pure ([] : List Err)
            | some st => do
                let nb ← pyNotInStrSet st VALID_STYLES
                pure (if nb then
                    [(path ++ ".style", "Unknown style '" ++ pyStr st
                        ++ "'. Known styles: " ++ joinSorted VALID_STYLES)]
                  else [])
          let unitErrs := optional_string p (path ++ ".units")
              ++ optional_string p (path ++ ".display_units")
          let convW ←
            match getKey? p "conversion" with
            | none => pure ([] : List Err)
            | some cv => do
                let nb ← pyNotInStrSet cv VALID_CONVERSIONS
                pure (if nb then
                    [(path ++ ".conversion", "Unknown conversion '" ++ pyStr cv
                        ++ "'. Known: " ++ joinSorted VALID_CONVERSIONS)]
                  else [])
          let (rE, rW) ← paramsLoop rest (i + 1) seen'
          pure (nameErrs ++ descErrs ++ lvlE ++ unitErrs ++ rE, lvlW ++ styleW ++ convW ++ rW)
      | _ => do
          let (rE, rW) ← paramsLoop rest (i + 1) seen
          pure ((path, "Each parameter must be a mapping") :: rE, rW)

/-- `ModelValidator._validate_parameters_section` (lines 404-468). -/
def validate_parameters_section (data : List (String × Yaml)) :
    Except PyErr (List Err × List Err) :=
  match getKey? data "parameters" with
  | none => .ok ([("parameters", "Missing required section 'parameters'")], [])
  | some pv =>
      match pv with
      | .list params =>
          if params.isEmpty then
            .ok ([("parameters", "Must have at least one parameter defined")], [])
          else paramsLoop params 0 []
      | _ => .ok ([("parameters", "Section must be a list")], [])

/-- Building `defined_params` in `_validate_composites_section`
(lines 519-522): iterate `data.get("parameters", [])` and add each
mapping's `name` to a set. -/
def definedFold : List Yaml → List Yaml → Except PyErr (List Yaml)
  | [], acc => .ok acc
  | p :: rest, acc =>
      match p with
      | .map m =>
          if hasKey m "name" then do
            let acc' ← pySetAdd (pyGet m "name") acc
            definedFold rest acc'
          else definedFold rest acc
      | _ => definedFold rest acc

/-- The `requires` cross-reference loop (lines 544-549). -/
def reqsLoop (path : String) (defined : List Yaml) : List Yaml → Except PyErr (List Err)
  | [] => .ok []
  | req :: rest => do
      let present ← pySetMem req defined
      let ws ← reqsLoop path defined rest
      pure ((if present then []
          else [(path ++ ".requires", "Required parameter '" ++ pyStr req
              ++ "' not defined in parameters section")]) ++ ws)

/-- The per-composite loop of `_validate_composites_section`
(lines 524-549). -/
def compsLoop (defined : List Yaml) : List Yaml → Nat → Except PyErr (List Err × List Err)
  | [], _ => .ok ([], [])
  | comp :: rest, i =>
      let path := "composites[" ++ toString i ++ "]"
      match comp with
      | .map c => do
          let nameErr : List Err :=
            if hasKey c "name" then [] else [(path ++ ".name", "Missing required field 'name'")]
          let (reqE, reqW) ←
            if !hasKey c "requires" then
              pure ([(path ++ ".requires", "Missing required field 'requires'")], ([] : List Err))
            else
              match pyGet c "requires" with
              | .list reqs => do
                  let ws ← reqsLoop path defined reqs
                  pure (([] : List Err), ws)
              | _ => pure ([(path ++ ".requires", "Must be a list of parameter names")], ([] : List Err))
          let (rE, rW) ← compsLoop defined rest (i + 1)
          pure (nameErr ++ reqE ++ rE, reqW ++ rW)
      | _ => do
          let (rE, rW) ← compsLoop defined rest (i + 1)
          pure ((path, "Each composite must be a mapping") :: rE, rW)

/-- `ModelValidator._validate_composites_section` (lines 508-549). -/
def validate_composites_section (data : List (String × Yaml)) :
    Except PyErr (List Err × List Err) :=
  match getKey? data "composites" with
  | none => .ok ([], [])
  | some cv =>
      match cv with
      | .list comps => do
          let items ← pyIter (pyGetD data "parameters" (.list []))
          let defined ← definedFold items []
          compsLoop defined comps 0
      | _ => .ok ([("composites", "Section must be a list")], [])

/-- The section-running part of `ModelValidator.validate`
(lines 143-151): each `_validate_*` call appends to the shared error
and warning lists. -/
def validate_sections (data : List (String × Yaml)) : Except PyErr (List Err × List Err) := do
  let (e1, w1) := validate_model_section data
  let (e2, w2) ← validate_dimensions_section data
  let (e3, w3) ← validate_source_section data
  let (e4, w4) ← validate_grid_section data
  let (e5, w5) := validate_schedule_section data
  let (e6, w6) := validate_retention_section data
  let (e7, w7) := validate_precaching_section data
  let (e8, w8) ← validate_parameters_section data
  let (e9, w9) ← validate_composites_section data
  pure (e1 ++ e2 ++ e3 ++ e4 ++ e5 ++ e6 ++ e7 ++ e8 ++ e9,
        w1 ++ w2 ++ w3 ++ w4 ++ w5 ++ w6 ++ w7 ++ w8 ++ w9)

/-- What loading the file yields: a YAML syntax error, a missing file,
or a parsed document. -/
inductive FileContent where
  | yamlError (msg : String)
  | notFound
  | value (v : Yaml)

/-- `ModelValidator.validate` (lines 126-154): load outcomes and the
root-type check produce a single error and `False`; otherwise all
sections run and the result is `len(self.errors) == 0`. -/
def validate (filename : String) (content : FileContent) :
    Except PyErr (List Err × List Err × Bool) :=
  match content with
  | .yamlError m => .ok ([("(file)", "Invalid YAML syntax: " ++ m)], [], false)
  | .notFound => .ok ([("(file)", "File not found: " ++ filename)], [], false)
  | .value v =>
      match v with
      | .map data =>
          (validate_sections data).map (fun ew => (ew.1, ew.2, ew.1.isEmpty))
      | _ => .ok ([("(root)", "Root must be a YAML mapping/dictionary")], [], false)

/-- One line of `main`'s per-file bookkeeping. -/
structure FileReport where
  name : String
  errors : List Err
  warnings : List Err
  valid : Bool

/-- The per-file loop of `main` (lines 633-658); a file named
`validate.py` is skipped. -/
def modelLoop : List (String × FileContent) → Except PyErr (List FileReport)
  | [] => .ok []
  | (name, c) :: rest =>
      if name == "validate.py" then modelLoop rest
      else do
        let (e, w, b) ← validate name c
        let r ← modelLoop rest
        pure ({ name := name, errors := e, warnings := w, valid := b } :: r)

/-- The observable outcome of `main` (lines 590-674). -/
structure ModelRun where
  reports : List FileReport
  valid_count : Nat
  total_errors : Nat
  total_warnings : Nat
  exitCode : Nat

/-- `main` (lines 590-674): exit 2 when no files were found, otherwise
exit 0 if `total_errors == 0` and 1 otherwise.  `total_errors` only
accumulates over invalid files, exactly as in the source. -/
def modelMain (files : List (String × FileContent)) : Except PyErr ModelRun :=
  if files.isEmpty then .ok ⟨[], 0, 0, 0, 2⟩
  else do
    let reports ← modelLoop files
    let valid_count := (reports.filter (fun r => r.valid)).length
    let total_errors := reports.foldl (fun acc r => if r.valid then acc else acc + r.errors.length) 0
    let total_warnings := reports.foldl (fun acc r => acc + r.warnings.length) 0
    pure ⟨reports, valid_count, total_errors, total_warnings, if total_errors = 0 then 0 else 1⟩

end Models

/-! ## The layer configuration validator (`config/layers/validate_layers.py`) -/

namespace Layers

def REQUIRED_LAYER_FIELDS : List String := ["id", "parameter", "title", "style_file"]

def REQUIRED_MODEL_FIELDS : List String := ["model", "display_name", "layers"]

/-- The error strings appended by `validate_layer` / `validate_file`,
kept structured; `renderLErr` below recovers the exact source text. -/
inductive LErr where
  | missingField (id : Yaml) (field : String)
  | unitsNotObject (id : Yaml)
  | missingUnits (id : Yaml)
  | missingUnitsNative (id : Yaml)
  | styleFileNotFound (id : Yaml) (style_file : String)
  | compositeNeedsRequires (id : Yaml)
  | missingModelField (field : String)
  | layersNotList
  | layerEntryNotObject (tyname : String)
  | duplicateId (id : Yaml) (ownFile : String)

/-- The warning strings appended by `validate_layer`. -/
inductive LWarn where
  | idPrefixWarn (id : Yaml) (expected : String)
  | noDefaultLevel (id : Yaml)

/-- The f-string each `LErr` constructor was appended with. -/
def renderLErr : LErr → String
  | .missingField i f => "Layer '" ++ pyStr i ++ "': missing required field '" ++ f ++ "'"
  | .unitsNotObject i => "Layer '" ++ pyStr i ++ "': 'units' must be an object"
  | .missingUnits i => "Layer '" ++ pyStr i ++ "': missing required field 'units'"
  | .missingUnitsNative i => "Layer '" ++ pyStr i ++ "': missing required field 'units.native'"
  | .styleFileNotFound i sf =>
      "Layer '" ++ pyStr i ++ "': style file '" ++ sf ++ "' not found in config/styles/"
  | .compositeNeedsRequires i =>
      "Layer '" ++ pyStr i ++ "': composite layer must have 'requires' field"
  | .missingModelField f => "Missing required field '" ++ f ++ "'"
  | .layersNotList => "'layers' must be a list"
  | .layerEntryNotObject t => "Layer entry must be an object, got: " ++ t
  | .duplicateId i f => "Duplicate layer ID '" ++ pyStr i ++ "' (also in " ++ f ++ ")"

/-- The f-string each `LWarn` constructor was appended with. -/
def renderLWarn : LWarn → String
  | .idPrefixWarn i p => "Layer '" ++ pyStr i ++ "': ID should start with '" ++ p ++ "'"
  | .noDefaultLevel i => "Layer '" ++ pyStr i ++ "': no default level specified"

/-- `layer.get("id", "<missing>")` (line 52). -/
def layer_id_val (layer : List (String × Yaml)) : Yaml :=
  pyGetD layer "id" (.str "<missing>")

/-- The required-field loop of `validate_layer` (lines 55-57). -/
def layer_req_errs (layer : List (String × Yaml)) : List LErr :=
  REQUIRED_LAYER_FIELDS.filterMap (fun f =>
    if hasKey layer f then none else some (.missingField (layer_id_val layer) f))

/-- The `units` block checks of `validate_layer` (lines 59-68):
`units.native` is not required for composite layers. -/
def layer_units_errs (layer : List (String × Yaml)) : List LErr :=
  let layer_id := layer_id_val layer
  let is_composite := (pyGetD layer "composite" (.bool false)).truthy
  let units := pyGetD layer "units" (.map [])
  if units.truthy && !units.isMapV then [.unitsNotObject layer_id]
  else if !is_composite then
    (if !units.truthy then [.missingUnits layer_id]
     else if !(yamlHasKey units "native") then [.missingUnitsNative layer_id]
     else [])
  else []

/-- The ID naming-convention check (lines 70-76):
`layer_id.startswith(...)` is an attribute access on the raw value. -/
def layer_name_warns (layer : List (String × Yaml)) (model : Yaml) :
    Except PyErr (List LWarn) :=
  if hasKey layer "id" && hasKey layer "parameter" then do
    let sw ← pyStartsWith (layer_id_val layer) (pyStr model ++ "_")
    pure (if sw then [] else [.idPrefixWarn (layer_id_val layer) (pyStr model ++ "_")])
  else pure []

/-- The style-file existence check (lines 78-85); `style_dir / style_file`
raises `TypeError` on a truthy non-string, and the filesystem is
abstracted by the predicate `styleEx`. -/
def layer_style_errs (layer : List (String × Yaml)) (styleEx : String → Bool) :
    Except PyErr (List LErr) :=
  let style_file := pyGet layer "style_file"
  if style_file.truthy then
    match style_file with
    | .str sf =>
        pure (if styleEx sf then [] else [.styleFileNotFound (layer_id_val layer) sf])
    | _ => .error .typeError
  else pure []

/-- The default-level check (lines 87-94); `any(... for lv in levels)`
iterates the raw value. -/
def layer_level_warns (layer : List (String × Yaml)) : Except PyErr (List LWarn) :=
  let levels := pyGetD layer "levels" (.list [])
  if levels.truthy then do
    let items ← pyIter levels
    let has_default := items.any (fun lv =>
      match lv with
      | .map m => (pyGetD m "default" (.bool false)).truthy
      | _ => false)
    pure (if has_default then [] else [.noDefaultLevel (layer_id_val layer)])
  else pure []

/-- The composite `requires` check (lines 96-98). -/
def layer_comp_errs (layer : List (String × Yaml)) : List LErr :=
  if (pyGet layer "composite").truthy && !(pyGet layer "requires").truthy then
    [.compositeNeedsRequires (layer_id_val layer)]
  else []

/-- The return value of `validate_layer` (line 100):
`layer_id if "id" in layer else None`. -/
def layer_id_of (layer : List (String × Yaml)) : Option Yaml :=
  if hasKey layer "id" then some (layer_id_val layer) else none

/-- `validate_layer` (lines 44-100), assembling the checks in source
order (errors: required fields, units, style file, composite;
warnings: naming convention, default level). -/
def validate_layer (layer : List (String × Yaml)) (model : Yaml) (styleEx : String → Bool) :
    Except PyErr (List LErr × List LWarn × Option Yaml) := do
  let nameWarns ← layer_name_warns layer model
  let styleErrs ← layer_style_errs layer styleEx
  let levelWarns ← layer_level_warns layer
  pure (layer_req_errs layer ++ layer_units_errs layer ++ styleErrs ++ layer_comp_errs layer,
        nameWarns ++ levelWarns,
        layer_id_of layer)

/-- The cross-file `all_layer_ids` dict: registered id value ↦ owning
file name, in registration order. -/
abbrev IdMap := List (Yaml × String)

/-- Lookup in `all_layer_ids` by Python key equality. -/
def lookupId (m : IdMap) (v : Yaml) : Option String :=
  (m.find? (fun p => pyEq v p.1)).map (fun p => p.2)

/-- The duplicate-ID registration step of `validate_file`
(lines 136-143): falsy ids are skipped, unhashable ids raise
`TypeError` at the dict probe. -/
def regLayer (m : IdMap) (fname : String) (idOpt : Option Yaml) :
    Except PyErr (List LErr × IdMap) :=
  match idOpt with
  | none => .ok ([], m)
  | some v =>
      if v.truthy then
        match v with
        | .list _ => .error .typeError
        | .map _ => .error .typeError
        | _ =>
            match lookupId m v with
            | some f => .ok ([.duplicateId v f], m)
            | none => .ok ([], m ++ [(v, fname)])
      else .ok ([], m)

/-- The per-layer loop of `validate_file` (lines 128-143). -/
def layersLoop (fname : String) (model : Yaml) (styleEx : String → Bool) :
    List Yaml → IdMap → Except PyErr (List LErr × List LWarn × IdMap)
  | [], m => .ok ([], [], m)
  | lay :: rest, m =>
      match lay with
      | .map l => do
          let (e, w, idOpt) ← validate_layer l model styleEx
          let (dupE, m') ← regLayer m fname idOpt
          let (rE, rW, m'') ← layersLoop fname model styleEx rest m'
          pure (e ++ dupE ++ rE, w ++ rW, m'')
      | _ => do
          let (rE, rW, m') ← layersLoop fname model styleEx rest m
          pure (.layerEntryNotObject lay.typeName :: rE, rW, m')

/-- The `REQUIRED_MODEL_FIELDS` loop of `validate_file` (lines 117-119):
`field not in data` uses the Python `in` operator on the raw document. -/
def fieldsCheckGo : List String → Yaml → Except PyErr (List LErr)
  | [], _ => .ok []
  | f :: rest, data => do
      let present ← pyContainsStr data f
      let r ← fieldsCheckGo rest data
      pure ((if present then [] else [LErr.missingModelField f]) ++ r)

/-- What `validate_file` reports for one file: a load failure (counted
as one error, printed separately) or the accumulated lists. -/
inductive LReport where
  | loadError
  | report (errors : List LErr) (warnings : List LWarn)

/-- `return 1, 0` for a load failure, `len(errors), len(warnings)`
otherwise (lines 114 and 155). -/
def errCount : LReport → Nat
  | .loadError => 1
  | .report e _ => e.length

def warnCount : LReport → Nat
  | .loadError => 0
  | .report _ w => w.length

/-- `validate_file` (lines 103-155).  `content = none` models
`load_yaml_file` returning `None`. -/
def validate_file (fname : String) (content : Option Yaml) (styleEx : String → Bool)
    (m : IdMap) : Except PyErr (LReport × IdMap) :=
  match content with
  | none => .ok (.loadError, m)
  | some data => do
      let fieldErrs ← fieldsCheckGo REQUIRED_MODEL_FIELDS data
      let model ← pyGetAttrD data "model" (.str "unknown")
      let layersV ← pyGetAttrD data "layers" (.list [])
      let listErr : List LErr := if layersV.isListV then [] else [.layersNotList]
      let items := match layersV with
        | .list l => l
        | _ => []
      let (le, lw, m') ← layersLoop fname model styleEx items m
      pure (.report (fieldErrs ++ listErr ++ le) lw, m')

/-- The per-file loop of `main` (lines 180-183), threading
`all_layer_ids`. -/
def layerFilesLoop (styleEx : String → Bool) :
    List (String × Option Yaml) → IdMap → Except PyErr (List LReport × IdMap)
  | [], m => .ok ([], m)
  | (n, c) :: rest, m => do
      let (r, m') ← validate_file n c styleEx m
      let (rs, m'') ← layerFilesLoop styleEx rest m'
      pure (r :: rs, m'')

/-- The observable outcome of the layer validator's `main`
(lines 158-197). -/
structure LayerRun where
  reports : List LReport
  idMap : IdMap
  total_errors : Nat
  total_warnings : Nat
  exitCode : Nat

/-- `main` (lines 158-197): exit 1 when no files were found; exit 1
when any error was counted; exit 0 otherwise (also with warnings). -/
def layerMain (files : List (String × Option Yaml)) (styleEx : String → Bool) :
    Except PyErr LayerRun :=
  if files.isEmpty then .ok ⟨[], [], 0, 0, 1⟩
  else do
    let (rs, m) ← layerFilesLoop styleEx files []
    let te := (rs.map errCount).sum
    let tw := (rs.map warnCount).sum
    pure ⟨rs, m, te, tw, if te ≠ 0 then 1 else 0⟩

end Layers

/-! ## The style JSON validator (`config/styles/validate_styles.py`) -/

namespace Styles

def VALID_STYLE_TYPES : List String :=
  ["gradient", "contour", "filled_contour", "wind_barbs", "wind_arrows", "numbers"]

def VALID_TRANSFORM_TYPES : List String :=
  ["none", "linear", "pa_to_hpa", "mps_to_knots", "k_to_c", "m_to_km"]

def VALID_INTERPOLATION_TYPES : List String := ["linear", "step", "nearest"]

def VALID_OUT_OF_RANGE_TYPES : List String := ["clamp", "extend", "transparent"]

/-- `ValidationError(file, path, message)` (lines 53-60). -/
structure SErr where
  file : String
  path : String
  msg : String

/-- `validate_color` (lines 63-81): the literal `"transparent"`, then
the string check, then `HEX_COLOR_PATTERN.match`. -/
def validate_color (color : Yaml) (path : String) (file : String) : List SErr :=
  if pyEq color (.str "transparent") then []
  else
    match color with
    | .str s =>
        if matchHexColor s then []
        else [⟨file, path, "Invalid color format '" ++ s ++ "'. Expected #RRGGBB or #RRGGBBAA"⟩]
    | _ => [⟨file, path, "Color must be string, got " ++ color.typeName⟩]

/-- `validate_stop` (lines 84-126); pure. -/
def validate_stop (stop : Yaml) (index : Nat) (path : String) (file : String) : List SErr :=
  let stop_path := path ++ "[" ++ toString index ++ "]"
  match stop with
  | .map st =>
      (match getKey? st "value" with
       | none => [⟨file, stop_path, "Missing required field 'value'"⟩]
       | some v =>
           if v.isPyNumber then []
           else [⟨file, stop_path ++ ".value", "Value must be number, got " ++ v.typeName⟩]) ++
      (match getKey? st "color" with
       | none => [⟨file, stop_path, "Missing required field 'color'"⟩]
       | some c => validate_color c (stop_path ++ ".color") file) ++
      (match getKey? st "label" with
       | some l =>
           if l.isStr then []
           else [⟨file, stop_path ++ ".label", "Label must be string, got " ++ l.typeName⟩]
       | none => [])
  | _ => [⟨file, stop_path, "Stop must be object, got " ++ stop.typeName⟩]

/-- `validate_transform` (lines 129-159). -/
def validate_transform (transform : Yaml) (path : String) (file : String) :
    Except PyErr (List SErr) :=
  match transform with
  | .map t => do
      let typeErrs ←
        match getKey? t "type" with
        | none => pure [(⟨file, path, "Missing required field 'type'"⟩ : SErr)]
        | some tv => do
            let nb ← pyNotInStrSet tv VALID_TRANSFORM_TYPES
            pure (if nb then
                [(⟨file, path ++ ".type", "Invalid transform type '" ++ pyStr tv
                    ++ "'. Valid types: " ++ renderPySet VALID_TRANSFORM_TYPES⟩ : SErr)]
              else [])
      let linErrs : List SErr :=
        if pyEq (pyGet t "type") (.str "linear") then
          (match getKey? t "scale" with
           | some s => if s.isPyNumber then [] else [⟨file, path ++ ".scale", "Scale must be a number"⟩]
           | none => []) ++
          (match getKey? t "offset" with
           | some o => if o.isPyNumber then [] else [⟨file, path ++ ".offset", "Offset must be a number"⟩]
           | none => [])
        else []
      pure (typeErrs ++ linErrs)
  | _ => .ok [⟨file, path, "Transform must be object, got " ++ transform.typeName⟩]

/-- `validate_range` (lines 162-189); pure: the `min >= max` probe is
guarded by `isinstance` checks. -/
def validate_range (range_obj : Yaml) (path : String) (file : String) : List SErr :=
  match range_obj with
  | .map r =>
      (match getKey? r "min" with
       | some mn => if mn.isPyNumber then [] else [⟨file, path ++ ".min", "Min must be a number"⟩]
       | none => []) ++
      (match getKey? r "max" with
       | some mx => if mx.isPyNumber then [] else [⟨file, path ++ ".max", "Max must be a number"⟩]
       | none => []) ++
      (match getKey? r "min", getKey? r "max" with
       | some mn, some mx =>
           if mn.isPyNumber && mx.isPyNumber then
             if decide (mn.intVal ≥ mx.intVal) then
               [⟨file, path, "Min (" ++ pyStr mn ++ ") must be less than max (" ++ pyStr mx ++ ")"⟩]
             else []
           else []
       | _, _ => [])
  | _ => [⟨file, path, "Range must be object, got " ++ range_obj.typeName⟩]

/-- `validate_legend` (lines 191-218); pure. -/
def validate_legend (legend : Yaml) (path : String) (file : String) : List SErr :=
  match legend with
  | .map l =>
      (match getKey? l "title" with
       | some t => if t.isStr then [] else [⟨file, path ++ ".title", "Title must be string"⟩]
       | none => []) ++
      (match getKey? l "labels" with
       | none => []
       | some lv =>
           match lv with
           | .list labels =>
               (labels.enum.map (fun p =>
                   if p.2.isStr then []
                   else [(⟨file, path ++ ".labels[" ++ toString p.1 ++ "]",
                       "Label must be string, got " ++ p.2.typeName⟩ : SErr)])).flatten
           | _ => [⟨file, path ++ ".labels", "Labels must be array"⟩])
  | _ => [⟨file, path, "Legend must be object, got " ++ legend.typeName⟩]

/-- `validate_contour` (lines 221-252); pure. -/
def validate_contour (contour : Yaml) (path : String) (file : String) : List SErr :=
  match contour with
  | .map c =>
      ((["interval", "base", "min_value", "max_value", "line_width", "major_interval",
         "major_line_width", "label_font_size", "smoothing_passes"].map (fun f =>
          match getKey? c f with
          | some v => if v.isPyNumber then [] else [(⟨file, path ++ "." ++ f, "Field must be number"⟩ : SErr)]
          | none => [])).flatten) ++
      (match getKey? c "line_color" with
       | some lc => validate_color lc (path ++ ".line_color") file
       | none => []) ++
      (match getKey? c "labels" with
       | some lb => if lb.isBool then [] else [⟨file, path ++ ".labels", "Labels must be boolean"⟩]
       | none => [])
  | _ => [⟨file, path, "Contour must be object, got " ++ contour.typeName⟩]

/-- `validate_wind` (lines 255-287); pure. -/
def validate_wind (wind : Yaml) (path : String) (file : String) : List SErr :=
  match wind with
  | .map w =>
      ((["spacing", "size", "line_width", "calm_threshold", "min_length",
         "max_length"].map (fun f =>
          match getKey? w f with
          | some v => if v.isPyNumber then [] else [(⟨file, path ++ "." ++ f, "Field must be number"⟩ : SErr)]
          | none => [])).flatten) ++
      (match getKey? w "color" with
       | some c => validate_color c (path ++ ".color") file
       | none => []) ++
      (match getKey? w "direction_from" with
       | some d => if d.isBool then [] else [⟨file, path ++ ".direction_from", "direction_from must be boolean"⟩]
       | none => [])
  | _ => [⟨file, path, "Wind must be object, got " ++ wind.typeName⟩]

/-- `validate_color_by_speed` (lines 290-315). -/
def validate_color_by_speed (cbs : Yaml) (path : String) (file : String) :
    Except PyErr (List SErr) :=
  match cbs with
  | .map c => do
      let enErrs : List SErr :=
        match getKey? c "enabled" with
        | some e => if e.isBool then [] else [⟨file, path ++ ".enabled", "enabled must be boolean"⟩]
        | none => []
      let stopsErrs : List SErr :=
        match getKey? c "stops" with
        | none => []
        | some sv =>
            match sv with
            | .list stops =>
                (stops.enum.map (fun p => validate_stop p.2 p.1 (path ++ ".stops") file)).flatten
            | _ => [⟨file, path ++ ".stops", "stops must be array"⟩]
      let interpErrs ←
        match getKey? c "interpolation" with
        | none => pure ([] : List SErr)
        | some iv => do
            let nb ← pyNotInStrSet iv VALID_INTERPOLATION_TYPES
            pure (if nb then
                [(⟨file, path ++ ".interpolation", "Invalid interpolation '" ++ pyStr iv
                    ++ "'. Valid: " ++ renderPySet VALID_INTERPOLATION_TYPES⟩ : SErr)]
              else [])
      pure (enErrs ++ stopsErrs ++ interpErrs)
  | _ => .ok [⟨file, path, "color_by_speed must be object"⟩]

/-- `validate_numbers` (lines 318-342); pure. -/
def validate_numbers (numbers : Yaml) (path : String) (file : String) : List SErr :=
  match numbers with
  | .map n =>
      ((["spacing", "font_size", "decimal_places"].map (fun f =>
          match getKey? n f with
          | some v => if v.isPyNumber then [] else [(⟨file, path ++ "." ++ f, "Field must be number"⟩ : SErr)]
          | none => [])).flatten) ++
      ((["font_color", "background_color"].map (fun f =>
          match getKey? n f with
          | some c => validate_color c (path ++ "." ++ f) file
          | none => [])).flatten)
  | _ => [⟨file, path, "Numbers must be object, got " ++ numbers.typeName⟩]

/-- The type-specific tail of `validate_style` (lines 392-452). -/
def validate_style_specific (st : List (String × Yaml)) (style_type : Yaml)
    (path : String) (file : String) : Except PyErr (List SErr) :=
  if pyEq style_type (.str "gradient") || pyEq style_type (.str "filled_contour") then do
    let stopsErrs : List SErr :=
      match getKey? st "stops" with
      | none => [⟨file, path, "Style type '" ++ pyStr style_type ++ "' requires 'stops' array"⟩]
      | some sv =>
          match sv with
          | .list stops =>
              if stops.length < 2 then [⟨file, path ++ ".stops", "Stops must have at least 2 entries"⟩]
              else (stops.enum.map (fun p => validate_stop p.2 p.1 (path ++ ".stops") file)).flatten
          | _ => [⟨file, path ++ ".stops", "Stops must be array"⟩]
    let interpErrs ←
      match getKey? st "interpolation" with
      | none => pure ([] : List SErr)
      | some iv => do
          let nb ← pyNotInStrSet iv VALID_INTERPOLATION_TYPES
          pure (if nb then
              [(⟨file, path ++ ".interpolation", "Invalid interpolation '" ++ pyStr iv
                  ++ "'. Valid: " ++ renderPySet VALID_INTERPOLATION_TYPES⟩ : SErr)]
            else [])
    let oorErrs ←
      match getKey? st "out_of_range" with
      | none => pure ([] : List SErr)
      | some ov => do
          let nb ← pyNotInStrSet ov VALID_OUT_OF_RANGE_TYPES
          pure (if nb then
              [(⟨file, path ++ ".out_of_range", "Invalid out_of_range '" ++ pyStr ov
                  ++ "'. Valid: " ++ renderPySet VALID_OUT_OF_RANGE_TYPES⟩ : SErr)]
            else [])
    pure (stopsErrs ++ interpErrs ++ oorErrs)
  else if pyEq style_type (.str "contour") then
    pure (match getKey? st "contour" with
      | some c => validate_contour c (path ++ ".contour") file
      | none => [])
  else if pyEq style_type (.str "wind_barbs") || pyEq style_type (.str "wind_arrows") then do
    let windErrs : List SErr :=
      match getKey? st "wind" with
      | some w => validate_wind w (path ++ ".wind") file
      | none => []
    let cbsErrs ←
      match getKey? st "color_by_speed" with
      | some c => validate_color_by_speed c (path ++ ".color_by_speed") file
      | none => pure ([] : List SErr)
    pure (windErrs ++ cbsErrs)
  else if pyEq style_type (.str "numbers") then
    pure (match getKey? st "numbers" with
      | some n => validate_numbers n (path ++ ".numbers") file
      | none => [])
  else pure []

/-- `validate_style` (lines 345-452).  A missing `type` and a known
but invalid `type` each record one error and return immediately. -/
def validate_style (style_id : String) (style : Yaml) (path : String) (file : String) :
    Except PyErr (List SErr) :=
  match style with
  | .map st =>
      (match getKey? st "type" with
       | none => .ok [⟨file, path, "Missing required field 'type'"⟩]
       | some style_type => do
           let nb ← pyNotInStrSet style_type VALID_STYLE_TYPES
           if nb then
             pure [(⟨file, path ++ ".type", "Invalid style type '" ++ pyStr style_type
                 ++ "'. Valid types: " ++ renderPySet VALID_STYLE_TYPES⟩ : SErr)]
           else do
             let commonErrs : List SErr :=
               (match getKey? st "name" with
                | some n => if n.isStr then [] else [⟨file, path ++ ".name", "Name must be string"⟩]
                | none => []) ++
               (match getKey? st "description" with
                | some d => if d.isStr then [] else [⟨file, path ++ ".description", "Description must be string"⟩]
                | none => []) ++
               (match getKey? st "units" with
                | some u => if u.isStr then [] else [⟨file, path ++ ".units", "Units must be string"⟩]
                | none => [])
             let trErrs ←
               match getKey? st "transform" with
               | some t => validate_transform t (path ++ ".transform") file
               | none => pure []
             let raErrs : List SErr :=
               match getKey? st "range" with
               | some r => validate_range r (path ++ ".range") file
               | none => []
             let leErrs : List SErr :=
               match getKey? st "legend" with
               | some l => validate_legend l (path ++ ".legend") file
               | none => []
             let specErrs ← validate_style_specific st style_type path file
             pure (commonErrs ++ trErrs ++ raErrs ++ leErrs ++ specErrs))
  | _ => .ok [⟨file, path, "Style must be object, got " ++ style.typeName⟩]

/-- The per-style loop of `validate_file` (lines 514-519): keys
beginning with `_` are comment keys and skipped. -/
def stylesLoop (file : String) : List (String × Yaml) → Except PyErr (List SErr)
  | [] => .ok []
  | (sid, st) :: rest =>
      if strStarts sid "_" then stylesLoop file rest
      else do
        let e ← validate_style sid st ("styles." ++ sid) file
        let r ← stylesLoop file rest
        pure (e ++ r)

/-- What reading the file yields: a JSON decode error or a parsed
document. -/
inductive SContent where
  | jsonError (msg : String)
  | value (v : Yaml)

/-- `validate_file` (lines 455-521). -/
def validate_file (fname : String) (content : SContent) : Except PyErr (List SErr) :=
  match content with
  | .jsonError m => .ok [⟨fname, "root", "Invalid JSON: " ++ m⟩]
  | .value v =>
      match v with
      | .map data => do
          let versionErrs : List SErr :=
            match getKey? data "version" with
            | none => [⟨fname, "root", "Missing required field 'version'"⟩]
            | some ver =>
                if pyEq ver (.str "1.0") then []
                else [⟨fname, "version", "Unknown version '" ++ pyStr ver ++ "'. Expected '1.0'"⟩]
          let metaErrs : List SErr :=
            match getKey? data "metadata" with
            | some mv => if mv.isMapV then [] else [⟨fname, "metadata", "Metadata must be object"⟩]
            | none => []
          let styleErrs ←
            match getKey? data "styles" with
            | none => pure [(⟨fname, "root", "Missing required field 'styles'"⟩ : SErr)]
            | some sv =>
                match sv with
                | .map styles => stylesLoop fname styles
                | _ => pure [(⟨fname, "styles", "Styles must be object, got " ++ sv.typeName⟩ : SErr)]
          pure (versionErrs ++ metaErrs ++ styleErrs)
      | _ => .ok [⟨fname, "root", "Root must be object, got " ++ v.typeName⟩]

/-- The per-file loop of `main` (lines 545-552). -/
def styleFilesLoop : List (String × SContent) → Except PyErr (List (List SErr))
  | [] => .ok []
  | (n, c) :: rest => do
      let e ← validate_file n c
      let r ← styleFilesLoop rest
      pure (e :: r)

/-- The observable outcome of the style validator's `main`
(lines 524-566). -/
structure StyleRun where
  all_errors : List SErr
  files_with_errors : Nat
  exitCode : Nat

/-- `main` (lines 524-566): exit 1 when no files were found; exit 1
when any error was collected; exit 0 otherwise. -/
def styleMain (files : List (String × SContent)) : Except PyErr StyleRun :=
  if files.isEmpty then .ok ⟨[], 0, 1⟩
  else do
    let errLists ← styleFilesLoop files
    let all := errLists.flatten
    let fwe := (errLists.filter (fun l => !l.isEmpty)).length
    pure ⟨all, fwe, if all.isEmpty then 0 else 1⟩

end Styles

/-! ## Specification-side definitions used by the claim statements -/

namespace Layers

/-- The registrable id occurrences of a list of layer entries: the
`id` values of mapping entries whose `id` key is present and truthy,
in order. -/
def occsOfLayers : List Yaml → List Yaml
  | [] => []
  | .map l :: rest =>
      (if hasKey l "id" && (pyGet l "id").truthy then [pyGet l "id"] else [])
        ++ occsOfLayers rest
  | _ :: rest => occsOfLayers rest

/-- The registrable id occurrences of one file's document. -/
def occsOfFile (content : Option Yaml) : List Yaml :=
  match content with
  | some (.map data) =>
      (match pyGetD data "layers" (.list []) with
       | .list l => occsOfLayers l
       | _ => [])
  | _ => []

/-- One file's occurrences paired with its name. -/
def fileOccPairs (p : String × Option Yaml) : List (String × Yaml) :=
  (occsOfFile p.2).map (fun v => (p.1, v))

/-- All registrable occurrences of a file list, in processing order. -/
def occList : List (String × Option Yaml) → List (String × Yaml)
  | [] => []
  | p :: rest => fileOccPairs p ++ occList rest

/-- The file of the first occurrence equal (under Python `==`) to `v`. -/
def firstOwner : List (String × Yaml) → Yaml → Option String
  | [], _ => none
  | (f, w) :: rest, v => if pyEq v w then some f else firstOwner rest v

/-- Specification-level registration of one occurrence. -/
def regSpec (m : IdMap) (fname : String) (v : Yaml) : List (Yaml × String) × IdMap :=
  match lookupId m v with
  | some f => ([(v, f)], m)
  | none => ([], m ++ [(v, fname)])

/-- Specification-level processing of a sequence of occurrences:
emitted duplicate pairs and the resulting ownership map. -/
def runSpec (m : IdMap) : List (String × Yaml) → List (Yaml × String) × IdMap
  | [] => ([], m)
  | (f, v) :: rest =>
      let s := regSpec m f v
      let r := runSpec s.2 rest
      (s.1 ++ r.1, r.2)

/-- The duplicate reports a list of occurrences must produce, given
the occurrences `prior` that were already processed: an occurrence
with an equal earlier occurrence yields exactly one pair naming that
first occurrence's file; a fresh occurrence registers itself. -/
def dupExpect : List (String × Yaml) → List (String × Yaml) → List (Yaml × String)
  | _, [] => []
  | prior, (f, v) :: rest =>
      match firstOwner prior v with
      | some F => (v, F) :: dupExpect prior rest
      | none => dupExpect (prior ++ [(f, v)]) rest

/-- Project a `duplicateId` error to its payload. -/
def dupOf : LErr → Option (Yaml × String)
  | .duplicateId v f => some (v, f)
  | _ => none

/-- The duplicate-ID errors of an error list, in order. -/
def dupsOfErrs (l : List LErr) : List (Yaml × String) := l.filterMap dupOf

/-- The duplicate-ID errors reported for one file. -/
def dupsOf : LReport → List (Yaml × String)
  | .loadError => []
  | .report e _ => dupsOfErrs e

/-- All ids in an ownership map are hashable scalars. -/
def keysScalar (m : IdMap) : Prop := ∀ p ∈ m, (p.1).scalarY = true

/-- All occurrence ids are hashable scalars. -/
def occsScalar (os : List (String × Yaml)) : Prop := ∀ p ∈ os, (p.2).scalarY = true

end Layers

namespace Styles

/-- Claim-side color acceptance, following the spec's words only: the
literal `"transparent"`, or a string that in its entirety is `#`
followed by 6 hex digits optionally followed by 2 more. -/
def specColorExact (c : Yaml) : Bool :=
  pyEq c (.str "transparent") ||
    (match c with
     | .str s => hexColorCore s.data
     | _ => false)

/-- A style mapping the claim C9 quantifies over: `type` absent, or a
hashable `type` value outside the closed style-type vocabulary. -/
def claimBadTypeScalar (st : List (String × Yaml)) : Bool :=
  match getKey? st "type" with
  | none => true
  | some v =>
      v.scalarY &&
        (match v with
         | .str s => !VALID_STYLE_TYPES.contains s
         | _ => true)

end Styles

namespace Styles

/-!
CPython renders a set constant interpolated into an f-string in the
set's iteration order, which is hash-seed dependent and therefore
varies between process invocations.  The style validator interpolates
set constants into five error messages (`validate_styles.py` lines
146, 313, 366, 421 and 433).  The definitions below repeat the style
validator with the iteration order made explicit: `σ` maps each set
constant to the order the process happens to render it in, so a
process run is `styleMainS σ` for the `σ` its hash seed determines.
`σ = fun l => l` recovers the fixed-order model `styleMain` above.
Only the functions on the call path to the five message sites are
repeated; all other helpers are shared with the model above.
-/

/-- `validate_transform` with the line-146 set interpolation rendered
in the iteration order `σ`. -/
def validate_transformS (σ : List String → List String) (transform : Yaml)
    (path : String) (file : String) : Except PyErr (List SErr) :=
  match transform with
  | .map t => do
      let typeErrs ←
        match getKey? t "type" with
        | none => pure [(⟨file, path, "Missing required field 'type'"⟩ : SErr)]
        | some tv => do
            let nb ← pyNotInStrSet tv VALID_TRANSFORM_TYPES
            pure (if nb then
                [(⟨file, path ++ ".type", "Invalid transform type '" ++ pyStr tv
                    ++ "'. Valid types: " ++ renderPySet (σ VALID_TRANSFORM_TYPES)⟩ : SErr)]
              else [])
      let linErrs : List SErr :=
        if pyEq (pyGet t "type") (.str "linear") then
          (match getKey? t "scale" with
           | some s => if s.isPyNumber then [] else [⟨file, path ++ ".scale", "Scale must be a number"⟩]
           | none => []) ++
          (match getKey? t "offset" with
           | some o => if o.isPyNumber then [] else [⟨file, path ++ ".offset", "Offset must be a number"⟩]
           | none => [])
        else []
      pure (typeErrs ++ linErrs)
  | _ => .ok [⟨file, path, "Transform must be object, got " ++ transform.typeName⟩]

/-- `validate_color_by_speed` with the line-313 set interpolation
rendered in the iteration order `σ`. -/
def validate_color_by_speedS (σ : List String → List String) (cbs : Yaml)
    (path : String) (file : String) : Except PyErr (List SErr) :=
  match cbs with
  | .map c => do
      let enErrs : List SErr :=
        match getKey? c "enabled" with
        | some e => if e.isBool then [] else [⟨file, path ++ ".enabled", "enabled must be boolean"⟩]
        | none => []
      let stopsErrs : List SErr :=
        match getKey? c "stops" with
        | none => []
        | some sv =>
            match sv with
            | .list stops =>
                (stops.enum.map (fun p => validate_stop p.2 p.1 (path ++ ".stops") file)).flatten
            | _ => [⟨file, path ++ ".stops", "stops must be array"⟩]
      let interpErrs ←
        match getKey? c "interpolation" with
        | none => pure ([] : List SErr)
        | some iv => do
            let nb ← pyNotInStrSet iv VALID_INTERPOLATION_TYPES
            pure (if nb then
                [(⟨file, path ++ ".interpolation", "Invalid interpolation '" ++ pyStr iv
                    ++ "'. Valid: " ++ renderPySet (σ VALID_INTERPOLATION_TYPES)⟩ : SErr)]
              else [])
      pure (enErrs ++ stopsErrs ++ interpErrs)
  | _ => .ok [⟨file, path, "color_by_speed must be object"⟩]

/-- The type-specific tail of `validate_style` with the line-421 and
line-433 set interpolations rendered in the iteration order `σ`. -/
def validate_style_specificS (σ : List String → List String)
    (st : List (String × Yaml)) (style_type : Yaml)
    (path : String) (file : String) : Except PyErr (List SErr) :=
  if pyEq style_type (.str "gradient") || pyEq style_type (.str "filled_contour") then do
    let stopsErrs : List SErr :=
      match getKey? st "stops" with
      | none => [⟨file, path, "Style type '" ++ pyStr style_type ++ "' requires 'stops' array"⟩]
      | some sv =>
          match sv with
          | .list stops =>
              if stops.length < 2 then [⟨file, path ++ ".stops", "Stops must have at least 2 entries"⟩]
              else (stops.enum.map (fun p => validate_stop p.2 p.1 (path ++ ".stops") file)).flatten
          | _ => [⟨file, path ++ ".stops", "Stops must be array"⟩]
    let interpErrs ←
      match getKey? st "interpolation" with
      | none => pure ([] : List SErr)
      | some iv => do
          let nb ← pyNotInStrSet iv VALID_INTERPOLATION_TYPES
          pure (if nb then
              [(⟨file, path ++ ".interpolation", "Invalid interpolation '" ++ pyStr iv
                  ++ "'. Valid: " ++ renderPySet (σ VALID_INTERPOLATION_TYPES)⟩ : SErr)]
            else [])
    let oorErrs ←
      match getKey? st "out_of_range" with
      | none => pure ([] : List SErr)
      | some ov => do
          let nb ← pyNotInStrSet ov VALID_OUT_OF_RANGE_TYPES
          pure (if nb then
              [(⟨file, path ++ ".out_of_range", "Invalid out_of_range '" ++ pyStr ov
                  ++ "'. Valid: " ++ renderPySet (σ VALID_OUT_OF_RANGE_TYPES)⟩ : SErr)]
            else [])
    pure (stopsErrs ++ interpErrs ++ oorErrs)
  else if pyEq style_type (.str "contour") then
    pure (match getKey? st "contour" with
      | some c => validate_contour c (path ++ ".contour") file
      | none => [])
  else if pyEq style_type (.str "wind_barbs") || pyEq style_type (.str "wind_arrows") then do
    let windErrs : List SErr :=
      match getKey? st "wind" with
      | some w => validate_wind w (path ++ ".wind") file
      | none => []
    let cbsErrs ←
      match getKey? st "color_by_speed" with
      | some c => validate_color_by_speedS σ c (path ++ ".color_by_speed") file
      | none => pure ([] : List SErr)
    pure (windErrs ++ cbsErrs)
  else if pyEq style_type (.str "numbers") then
    pure (match getKey? st "numbers" with
      | some n => validate_numbers n (path ++ ".numbers") file
      | none => [])
  else pure []

/-- `validate_style` with the line-366 set interpolation rendered in
the iteration order `σ`. -/
def validate_styleS (σ : List String → List String) (style_id : String)
    (style : Yaml) (path : String) (file : String) : Except PyErr (List SErr) :=
  match style with
  | .map st =>
      (match getKey? st "type" with
       | none => .ok [⟨file, path, "Missing required field 'type'"⟩]
       | some style_type => do
           let nb ← pyNotInStrSet style_type VALID_STYLE_TYPES
           if nb then
             pure [(⟨file, path ++ ".type", "Invalid style type '" ++ pyStr style_type
                 ++ "'. Valid types: " ++ renderPySet (σ VALID_STYLE_TYPES)⟩ : SErr)]
           else do
             let commonErrs : List SErr :=
               (match getKey? st "name" with
                | some n => if n.isStr then [] else [⟨file, path ++ ".name", "Name must be string"⟩]
                | none => []) ++
               (match getKey? st "description" with
                | some d => if d.isStr then [] else [⟨file, path ++ ".description", "Description must be string"⟩]
                | none => []) ++
               (match getKey? st "units" with
                | some u => if u.isStr then [] else [⟨file, path ++ ".units", "Units must be string"⟩]
                | none => [])
             let trErrs ←
               match getKey? st "transform" with
               | some t => validate_transformS σ t (path ++ ".transform") file
               | none => pure []
             let raErrs : List SErr :=
               match getKey? st "range" with
               | some r => validate_range r (path ++ ".range") file
               | none => []
             let leErrs : List SErr :=
               match getKey? st "legend" with
               | some l => validate_legend l (path ++ ".legend") file
               | none => []
             let specErrs ← validate_style_specificS σ st style_type path file
             pure (commonErrs ++ trErrs ++ raErrs ++ leErrs ++ specErrs))
  | _ => .ok [⟨file, path, "Style must be object, got " ++ style.typeName⟩]

/-- The per-style loop with the iteration order `σ`. -/
def stylesLoopS (σ : List String → List String) (file : String) :
    List (String × Yaml) → Except PyErr (List SErr)
  | [] => .ok []
  | (sid, st) :: rest =>
      if strStarts sid "_" then stylesLoopS σ file rest
      else do
        let e ← validate_styleS σ sid st ("styles." ++ sid) file
        let r ← stylesLoopS σ file rest
        pure (e ++ r)

/-- `validate_file` with the iteration order `σ`. -/
def validate_fileS (σ : List String → List String) (fname : String)
    (content : SContent) : Except PyErr (List SErr) :=
  match content with
  | .jsonError m => .ok [⟨fname, "root", "Invalid JSON: " ++ m⟩]
  | .value v =>
      match v with
      | .map data => do
          let versionErrs : List SErr :=
            match getKey? data "version" with
            | none => [⟨fname, "root", "Missing required field 'version'"⟩]
            | some ver =>
                if pyEq ver (.str "1.0") then []
                else [⟨fname, "version", "Unknown version '" ++ pyStr ver ++ "'. Expected '1.0'"⟩]
          let metaErrs : List SErr :=
            match getKey? data "metadata" with
            | some mv => if mv.isMapV then [] else [⟨fname, "metadata", "Metadata must be object"⟩]
            | none => []
          let styleErrs ←
            match getKey? data "styles" with
            | none => pure [(⟨fname, "root", "Missing required field 'styles'"⟩ : SErr)]
            | some sv =>
                match sv with
                | .map styles => stylesLoopS σ fname styles
                | _ => pure [(⟨fname, "styles", "Styles must be object, got " ++ sv.typeName⟩ : SErr)]
          pure (versionErrs ++ metaErrs ++ styleErrs)
      | _ => .ok [⟨fname, "root", "Root must be object, got " ++ v.typeName⟩]

/-- The per-file loop with the iteration order `σ`. -/
def styleFilesLoopS (σ : List String → List String) :
    List (String × SContent) → Except PyErr (List (List SErr))
  | [] => .ok []
  | (n, c) :: rest => do
      let e ← validate_fileS σ n c
      let r ← styleFilesLoopS σ rest
      pure (e :: r)

/-- `main` of the style validator as run by a process whose hash seed
renders set constants in the order `σ`. -/
def styleMainS (σ : List String → List String)
    (files : List (String × SContent)) : Except PyErr StyleRun :=
  if files.isEmpty then .ok ⟨[], 0, 1⟩
  else do
    let errLists ← styleFilesLoopS σ files
    let all := errLists.flatten
    let fwe := (errLists.filter (fun l => !l.isEmpty)).length
    pure ⟨all, fwe, if all.isEmpty then 0 else 1⟩

/-- Forget an error's message text, keeping its attribution: the file
and the dotted path. -/
def eraseMsg (e : SErr) : String × String := (e.file, e.path)

/-- The seed-independent shape of a run: the attributed errors without
their text, the count of files with errors, and the exit code. -/
def runShape (r : StyleRun) : List (String × String) × Nat × Nat :=
  (r.all_errors.map eraseMsg, r.files_with_errors, r.exitCode)

/-- The message texts of a completed run, the seed-dependent part. -/
def runMsgs : Except PyErr StyleRun → List String
  | .ok r => r.all_errors.map SErr.msg
  | .error _ => []

/-- One style file whose single style has the unknown type `bogus`,
so that the reported error's text interpolates `VALID_STYLE_TYPES`. -/
def cexSeedFile : String × SContent :=
  ("s.json", .value (.map [("version", .str "1.0"),
    ("styles", .map [("a", .map [("type", .str "bogus")])])]))

end Styles

/-- A complete, otherwise-valid layer declaring id `gfs_temp`, used to
instantiate the duplicate-ownership property on a concrete run. -/
def gfsTempLayer : Yaml :=
  .map [("id", .str "gfs_temp"), ("parameter", .str "t"), ("title", .str "T"),
    ("style_file", .str "s.json"), ("units", .map [("native", .str "K")]),
    ("levels", .list [.map [("default", .bool true)]])]

/-- Two layer files, processed in order, each declaring a layer with id
`gfs_temp`. -/
def gfsTempFiles : List (String × Option Yaml) :=
  [("a.yaml", some (.map [("model", .str "gfs"), ("display_name", .str "G"),
      ("layers", .list [gfsTempLayer])])),
   ("b.yaml", some (.map [("model", .str "gfs"), ("display_name", .str "G"),
      ("layers", .list [gfsTempLayer])]))]

/-! ## Claims -/

/-- Claim C1.  The spec requires each level to carry either a scalar
`value` or a non-empty `values` list.  The code does not: a level
`{type: surface}` with neither key produces no error at all (the
source computes `has_value` and never reads it), and a full
configuration containing only such a level is judged valid. -/
theorem models_levels_missing_value_not_flagged :
    Models.validate_levels (.list [.map [("type", .str "surface")]]) "parameters[0].levels"
        = .ok ([], [])
    ∧ Models.validate "gfs.yaml" (.value (.map [
        ("model", .map [("id", .str "gfs"), ("name", .str "GFS")]),
        ("dimensions", .map [("type", .str "forecast")]),
        ("source", .map [("type", .str "local")]),
        ("grid", .map [("projection", .str "geographic")]),
        ("schedule", .map []),
        ("retention", .map [("hours", .int 24)]),
        ("parameters", .list [.map [("name", .str "temp"),
           ("levels", .list [.map [("type", .str "surface")]])]])]))
        = .ok ([], [], true) := by
  refine ⟨?_, ?_⟩ <;> rfl

/-- Claim C2.  The validator does not always run to completion: a
document with `source: {type: 5}` reaches
`source_type.startswith("aws_s3")` on an `int` and dies with
`AttributeError` (both at section level and through
`ModelValidator.validate`), and a `grid.bbox` mixing a string bound
with a numeric one dies with `TypeError` at `min_lon >= max_lon`. -/
theorem models_source_grid_crash :
    Models.validate_source_section [("source", .map [("type", .int 5)])]
        = .error .attributeError
    ∧ Models.validate "gfs.yaml" (.value (.map [("source", .map [("type", .int 5)])]))
        = .error .attributeError
    ∧ Models.validate_grid_section [("grid", .map [("bbox", .map
        [("min_lon", .str "a"), ("min_lat", .int 0), ("max_lon", .int 1), ("max_lat", .int 2)])])]
        = .error .typeError := by
  refine ⟨?_, ?_, ?_⟩ <;> rfl

/-- Claim C3, counterexample.  A composite layer carrying a `units`
mapping that lacks `native` produces no error at all, while the claim
requires an error naming `units.native` whenever `units` is present
(composite or not). -/
theorem layers_units_native_composite_cex :
    Layers.validate_layer
        [("id", .str "gfs_temp"), ("parameter", .str "t"), ("title", .str "T"),
         ("style_file", .str "s.json"), ("composite", .bool true),
         ("requires", .list [.str "a"]), ("units", .map [("display", .str "C")])]
        (.str "gfs") (fun _ => true)
      = .ok ([], [], some (.str "gfs_temp")) :=
  rfl

/-- Claim C7, counterexample.  `re.match` lets `$` match just before a
single trailing newline, so the color predicate accepts
`"#ff0000\n"`, which is neither `"transparent"` nor a string that is
entirely `#` plus 6 or 8 hex digits. -/
theorem styles_color_trailing_newline_cex :
    Styles.validate_color (.str "#ff0000\n") "styles.x.stops[0].color" "temperature.json" = []
    ∧ Styles.specColorExact (.str "#ff0000\n") = false := by
  refine ⟨?_, ?_⟩ <;> rfl

/-- Claim C9, counterexample.  A style whose `type` is the (unhashable)
value `[]` is outside the closed style-type vocabulary, but instead of
recording one error the validator dies with `TypeError` at
`style_type not in VALID_STYLE_TYPES`, and the file's remaining styles
are never examined. -/
theorem styles_unknown_type_unhashable_cex :
    Styles.validate_style "bad" (.map [("type", .list [])]) "styles.bad" "f.json"
        = .error .typeError
    ∧ Styles.validate_file "f.json" (.value (.map [("version", .str "1.0"),
        ("styles", .map [("bad", .map [("type", .list [])]),
                         ("good", .map [("type", .str "gradient")])])]))
        = .error .typeError := by
  refine ⟨?_, ?_⟩ <;> rfl

/-- Claim C7, amended.  The color predicate accepts exactly
`"transparent"` and strings that are `#` plus 6 hex digits, optionally
2 more, optionally followed by one trailing newline (the `$` of
`re.match` also matches there); every other value gets an error.  The
spec's four examples behave as stated. -/
theorem styles_color_characterization :
    (∀ (c : Yaml) (path file : String),
        Styles.validate_color c path file = []
          ↔ (c = .str "transparent" ∨ ∃ s, c = .str s ∧ matchHexColor s = true))
    ∧ Styles.validate_color (.str "#ff0000") "p" "f" = []
    ∧ Styles.validate_color (.str "#ff0000aa") "p" "f" = []
    ∧ Styles.validate_color (.str "red") "p" "f" ≠ []
    ∧ Styles.validate_color (.str "#fff") "p" "f" ≠ [] := by
  refine ⟨?_, rfl, rfl, by simp [Styles.validate_color, pyEq, matchHexColor,
      matchWithDollar, hexColorCore], by simp [Styles.validate_color, pyEq, matchHexColor,
      matchWithDollar, hexColorCore]⟩
  intro c path file
  cases c with
  | str s =>
      by_cases hs : s = "transparent"
      · subst hs
        simp [Styles.validate_color, pyEq]
      · have hne : pyEq (.str s) (.str "transparent") = false := by
          simp [pyEq, hs]
        by_cases hm : matchHexColor s
        · simp [Styles.validate_color, hne, hm, hs]
        · simp [Styles.validate_color, hne, hm, hs]
  | null => simp [Styles.validate_color, pyEq, Yaml.isPyInt]
  | bool b => simp [Styles.validate_color, pyEq, Yaml.isPyInt]
  | int n => simp [Styles.validate_color, pyEq, Yaml.isPyInt]
  | list l => simp [Styles.validate_color, pyEq, Yaml.isPyInt]
  | map m => simp [Styles.validate_color, pyEq, Yaml.isPyInt]

theorem validate_style_badtype (sid : String) (st : List (String × Yaml))
    (path file : String) (h : Styles.claimBadTypeScalar st = true) :
    ∃ er, Styles.validate_style sid (.map st) path file = .ok [er] := by
  unfold Styles.claimBadTypeScalar at h
  cases hk : getKey? st "type" with
  | none =>
      refine ⟨⟨file, path, "Missing required field 'type'"⟩, ?_⟩
      simp [Styles.validate_style, hk]
  | some v =>
      rw [hk] at h
      cases v with
      | str s =>
          simp only [Yaml.scalarY, Bool.true_and] at h
          have h' : s ∉ Styles.VALID_STYLE_TYPES := by simpa using h
          refine ⟨⟨file, path ++ ".type",
            "Invalid style type '" ++ pyStr (.str s) ++ "'. Valid types: "
              ++ renderPySet Styles.VALID_STYLE_TYPES⟩, ?_⟩
          simp [Styles.validate_style, hk, pyNotInStrSet, h', bind, Except.bind, pure, Except.pure]
      | null =>
          refine ⟨⟨file, path ++ ".type",
            "Invalid style type '" ++ pyStr .null ++ "'. Valid types: "
              ++ renderPySet Styles.VALID_STYLE_TYPES⟩, ?_⟩
          simp [Styles.validate_style, hk, pyNotInStrSet, bind, Except.bind, pure, Except.pure]
      | bool b =>
          refine ⟨⟨file, path ++ ".type",
            "Invalid style type '" ++ pyStr (.bool b) ++ "'. Valid types: "
              ++ renderPySet Styles.VALID_STYLE_TYPES⟩, ?_⟩
          simp [Styles.validate_style, hk, pyNotInStrSet, bind, Except.bind, pure, Except.pure]
      | int n =>
          refine ⟨⟨file, path ++ ".type",
            "Invalid style type '" ++ pyStr (.int n) ++ "'. Valid types: "
              ++ renderPySet Styles.VALID_STYLE_TYPES⟩, ?_⟩
          simp [Styles.validate_style, hk, pyNotInStrSet, bind, Except.bind, pure, Except.pure]
      | list l => simp [Yaml.scalarY] at h
      | map m => simp [Yaml.scalarY] at h

theorem stylesLoop_mid (file sid : String) (stv : Yaml) (er : Styles.SErr)
    (post : List (String × Yaml)) (L2 : List Styles.SErr)
    (hsid : strStarts sid "_" = false)
    (hv : Styles.validate_style sid stv ("styles." ++ sid) file = .ok [er])
    (h2 : Styles.stylesLoop file post = .ok L2) :
    ∀ (pre : List (String × Yaml)) (L1 : List Styles.SErr),
      Styles.stylesLoop file pre = .ok L1 →
      Styles.stylesLoop file (pre ++ (sid, stv) :: post) = .ok (L1 ++ er :: L2) := by
  intro pre
  induction pre with
  | nil =>
      intro L1 h1
      simp [Styles.stylesLoop] at h1
      subst h1
      simp [Styles.stylesLoop, hsid, hv, h2, bind, Except.bind, pure, Except.pure]
  | cons p rest ih =>
      intro L1 h1
      obtain ⟨s0, st0⟩ := p
      by_cases hu : strStarts s0 "_"
      · simp only [Styles.stylesLoop, hu, if_true, List.cons_append] at h1 ⊢
        exact ih L1 h1
      · simp only [Styles.stylesLoop, hu, if_false, Bool.false_eq_true, List.cons_append] at h1 ⊢
        cases he : Styles.validate_style s0 st0 ("styles." ++ s0) file with
        | error e => simp [he, bind, Except.bind] at h1
        | ok e0 =>
            cases hr : Styles.stylesLoop file rest with
            | error e => simp [he, hr, bind, Except.bind] at h1
            | ok r0 =>
                simp [he, hr, bind, Except.bind, pure, Except.pure] at h1
                subst h1
                simp [he, ih r0 hr, bind, Except.bind, pure, Except.pure]

/-- Claim C9, amended.  For a style mapping whose `type` is absent or
is a hashable value outside the closed style-type vocabulary, exactly
one error is recorded for that style (none of its other fields are
examined) and the remaining style entries of the document are still
processed; an unhashable `type` value instead aborts the run
(`styles_unknown_type_unhashable_cex`). -/
theorem styles_bad_type_single_error :
    ∀ (sid : String) (st : List (String × Yaml)) (file : String)
      (pre post : List (String × Yaml)) (L1 L2 : List Styles.SErr),
      Styles.claimBadTypeScalar st = true →
      strStarts sid "_" = false →
      Styles.stylesLoop file pre = .ok L1 →
      Styles.stylesLoop file post = .ok L2 →
      ∃ er, Styles.validate_style sid (.map st) ("styles." ++ sid) file = .ok [er]
        ∧ Styles.stylesLoop file (pre ++ (sid, .map st) :: post) = .ok (L1 ++ er :: L2) := by
  intro sid st file pre post L1 L2 hbad hsid h1 h2
  obtain ⟨er, hv⟩ := validate_style_badtype sid st ("styles." ++ sid) file hbad
  exact ⟨er, hv, stylesLoop_mid file sid (.map st) er post L2 hsid hv h2 pre L1 h1⟩

/-- Witness for `styles_bad_type_single_error`: a document with a
comment key, a style with an unknown scalar `type` (and a malformed
`name` that is indeed not examined), and a following style that is
still validated. -/
theorem styles_bad_type_single_error_wit :
    Styles.stylesLoop "f.json"
        ([("_comment", .int 0)] ++
          ("s", .map [("type", .str "nope"), ("name", .int 5)]) ::
          [("g", .map [("type", .str "gradient")])])
      = .ok ([] ++
          (⟨"f.json", "styles.s.type",
            "Invalid style type 'nope'. Valid types: \x7b'gradient', 'contour', 'filled_contour', 'wind_barbs', 'wind_arrows', 'numbers'\x7d"⟩ : Styles.SErr) ::
          [⟨"f.json", "styles.g", "Style type 'gradient' requires 'stops' array"⟩]) := by
  obtain ⟨er, hv, hloop⟩ :=
    styles_bad_type_single_error "s" [("type", .str "nope"), ("name", .int 5)] "f.json"
      [("_comment", .int 0)] [("g", .map [("type", .str "gradient")])]
      [] [⟨"f.json", "styles.g", "Style type 'gradient' requires 'stops' array"⟩]
      (by rfl) (by rfl) (by rfl) (by rfl)
  have her : er = ⟨"f.json", "styles.s.type",
      "Invalid style type 'nope'. Valid types: \x7b'gradient', 'contour', 'filled_contour', 'wind_barbs', 'wind_arrows', 'numbers'\x7d"⟩ := by
    have hv' : Styles.validate_style "s" (.map [("type", .str "nope"), ("name", .int 5)])
        ("styles." ++ "s") "f.json" = .ok [⟨"f.json", "styles.s.type",
        "Invalid style type 'nope'. Valid types: \x7b'gradient', 'contour', 'filled_contour', 'wind_barbs', 'wind_arrows', 'numbers'\x7d"⟩] := rfl
    rw [hv'] at hv
    simpa using hv.symm
  rw [her] at hloop
  exact hloop


theorem validate_layer_errs_shape (l : List (String × Yaml)) (model : Yaml)
    (sx : String → Bool) (e : List Layers.LErr) (w : List Layers.LWarn) (o : Option Yaml)
    (h : Layers.validate_layer l model sx = .ok (e, w, o)) :
    ∃ se, Layers.layer_style_errs l sx = .ok se
      ∧ e = Layers.layer_req_errs l
              ++ (Layers.layer_units_errs l ++ (se ++ Layers.layer_comp_errs l))
      ∧ o = Layers.layer_id_of l := by
  unfold Layers.validate_layer at h
  cases hn : Layers.layer_name_warns l model with
  | error pe => rw [hn] at h; simp [bind, Except.bind] at h
  | ok nw =>
      cases hs : Layers.layer_style_errs l sx with
      | error pe => rw [hn, hs] at h; simp [bind, Except.bind] at h
      | ok se =>
          cases hl : Layers.layer_level_warns l with
          | error pe => rw [hn, hs, hl] at h; simp [bind, Except.bind] at h
          | ok lw =>
              rw [hn, hs, hl] at h
              simp [bind, Except.bind, pure, Except.pure] at h
              exact ⟨se, rfl, h.1.symm, h.2.2.symm⟩

theorem mem_layer_req_errs (l : List (String × Yaml)) :
    ∀ x ∈ Layers.layer_req_errs l, ∃ i f, x = Layers.LErr.missingField i f := by
  intro x hx
  unfold Layers.layer_req_errs at hx
  simp only [List.mem_filterMap] at hx
  obtain ⟨f, -, hx⟩ := hx
  by_cases hk : hasKey l f <;> simp [hk] at hx
  exact ⟨_, _, hx.symm⟩

theorem layer_style_errs_shape (l : List (String × Yaml)) (sx : String → Bool)
    (se : List Layers.LErr) (h : Layers.layer_style_errs l sx = .ok se) :
    se = [] ∨ ∃ i sf, se = [Layers.LErr.styleFileNotFound i sf] := by
  unfold Layers.layer_style_errs at h
  by_cases ht : (pyGet l "style_file").truthy
  · rw [if_pos ht] at h
    cases hv : pyGet l "style_file" <;> rw [hv] at h <;>
      simp [pure, Except.pure] at h
    rename_i s
    by_cases hx : sx s <;> simp [hx] at h
    · left; exact h
    · right; exact ⟨_, _, h.symm⟩
  · rw [if_neg ht] at h
    simp [pure, Except.pure] at h
    left; exact h

theorem layer_comp_errs_shape (l : List (String × Yaml)) :
    Layers.layer_comp_errs l = []
      ∨ Layers.layer_comp_errs l
          = [Layers.LErr.compositeNeedsRequires (Layers.layer_id_val l)] := by
  unfold Layers.layer_comp_errs
  by_cases hc : (pyGet l "composite").truthy && !(pyGet l "requires").truthy
  · right; rw [if_pos hc]
  · left; rw [if_neg hc]

theorem layer_units_errs_char (l : List (String × Yaml)) :
    (Layers.LErr.unitsNotObject (Layers.layer_id_val l) ∈ Layers.layer_units_errs l
       ↔ ((pyGetD l "units" (.map [])).truthy = true
           ∧ (pyGetD l "units" (.map [])).isMapV = false))
    ∧ (Layers.LErr.missingUnits (Layers.layer_id_val l) ∈ Layers.layer_units_errs l
       ↔ ((pyGetD l "composite" (.bool false)).truthy = false
           ∧ (pyGetD l "units" (.map [])).truthy = false))
    ∧ (Layers.LErr.missingUnitsNative (Layers.layer_id_val l) ∈ Layers.layer_units_errs l
       ↔ ((pyGetD l "composite" (.bool false)).truthy = false
           ∧ (pyGetD l "units" (.map [])).truthy = true
           ∧ (pyGetD l "units" (.map [])).isMapV = true
           ∧ yamlHasKey (pyGetD l "units" (.map [])) "native" = false)) := by
  unfold Layers.layer_units_errs
  dsimp only
  split_ifs with h1 h2 h3 h4 <;>
    simp_all only [Bool.and_eq_true, Bool.not_eq_true', Bool.not_eq_true,
      Bool.not_eq_false, List.mem_singleton, List.not_mem_nil, not_false_eq_true,
      iff_true, iff_false, false_iff, true_iff, List.mem_cons, or_false] <;>
    simp_all

/-- Claim C3, amended.  In `validate_layer`: a truthy non-mapping
`units` records the `'units' must be an object` error; for
non-composite layers only, an absent/falsy `units` records the
missing-`units` error, and a present truthy `units` mapping lacking
`native` records the error naming `units.native`.  Composite layers'
units mappings are exempt from the `native` requirement
(`layers_units_native_composite_cex`). -/
theorem layers_units_requirements :
    ∀ (l : List (String × Yaml)) (model : Yaml) (styleEx : String → Bool)
      (e : List Layers.LErr) (w : List Layers.LWarn) (o : Option Yaml),
      Layers.validate_layer l model styleEx = .ok (e, w, o) →
      ((Layers.LErr.unitsNotObject (Layers.layer_id_val l) ∈ e
          ↔ ((pyGetD l "units" (.map [])).truthy = true
              ∧ (pyGetD l "units" (.map [])).isMapV = false))
       ∧ (Layers.LErr.missingUnits (Layers.layer_id_val l) ∈ e
          ↔ ((pyGetD l "composite" (.bool false)).truthy = false
              ∧ (pyGetD l "units" (.map [])).truthy = false))
       ∧ (Layers.LErr.missingUnitsNative (Layers.layer_id_val l) ∈ e
          ↔ ((pyGetD l "composite" (.bool false)).truthy = false
              ∧ (pyGetD l "units" (.map [])).truthy = true
              ∧ (pyGetD l "units" (.map [])).isMapV = true
              ∧ yamlHasKey (pyGetD l "units" (.map [])) "native" = false))) := by
  intro l model styleEx e w o h
  obtain ⟨se, hse, he, -⟩ := validate_layer_errs_shape l model styleEx e w o h
  subst he
  have hreq := mem_layer_req_errs l
  have hsty := layer_style_errs_shape l styleEx se hse
  have hcmp := layer_comp_errs_shape l
  have hna : ∀ x : Layers.LErr,
      (∀ i f, x ≠ Layers.LErr.missingField i f) →
      (∀ i sf, x ≠ Layers.LErr.styleFileNotFound i sf) →
      (∀ i, x ≠ Layers.LErr.compositeNeedsRequires i) →
      (x ∈ Layers.layer_req_errs l
            ++ (Layers.layer_units_errs l ++ (se ++ Layers.layer_comp_errs l))
        ↔ x ∈ Layers.layer_units_errs l) := by
    intro x hnm hns hnc
    simp only [List.mem_append]
    constructor
    · rintro (hx | hx | hx | hx)
      · obtain ⟨i, f, hf⟩ := hreq x hx; exact absurd hf (hnm i f)
      · exact hx
      · rcases hsty with rfl | ⟨i, sf, rfl⟩
        · simp at hx
        · simp at hx; exact absurd hx (hns i sf)
      · rcases hcmp with hc | hc <;> rw [hc] at hx <;> simp at hx
        exact absurd hx (hnc _)
    · intro hx; exact Or.inr (Or.inl hx)
  obtain ⟨c1, c2, c3⟩ := layer_units_errs_char l
  refine ⟨?_, ?_, ?_⟩
  · rw [hna _ (fun i f hf => by cases hf) (fun i sf hf => by cases hf)
        (fun i hf => by cases hf)]
    exact c1
  · rw [hna _ (fun i f hf => by cases hf) (fun i sf hf => by cases hf)
        (fun i hf => by cases hf)]
    exact c2
  · rw [hna _ (fun i f hf => by cases hf) (fun i sf hf => by cases hf)
        (fun i hf => by cases hf)]
    exact c3

/-- Witness for `layers_units_requirements`: a non-composite layer
with a truthy `units` mapping lacking `native` gets exactly the
`units.native` error. -/
theorem layers_units_requirements_wit :
    (Layers.validate_layer
        [("id", .str "m_t"), ("parameter", .str "t"), ("title", .str "T"),
         ("style_file", .str "s.json"), ("units", .map [("display", .str "C")])]
        (.str "m") (fun _ => true)
      = .ok ([.missingUnitsNative (.str "m_t")], [], some (.str "m_t")))
    ∧ Layers.LErr.missingUnitsNative
        (Layers.layer_id_val
          [("id", .str "m_t"), ("parameter", .str "t"), ("title", .str "T"),
           ("style_file", .str "s.json"), ("units", .map [("display", .str "C")])])
        ∈ [Layers.LErr.missingUnitsNative (.str "m_t")] := by
  refine ⟨rfl, ?_⟩
  exact ((layers_units_requirements
      [("id", .str "m_t"), ("parameter", .str "t"), ("title", .str "T"),
       ("style_file", .str "s.json"), ("units", .map [("display", .str "C")])]
      (.str "m") (fun _ => true)
      [.missingUnitsNative (.str "m_t")] [] (some (.str "m_t")) rfl).2.2).mpr
    ⟨rfl, rfl, rfl, rfl⟩

theorem validate_valid_iff (name : String) (c : Models.FileContent)
    (e w : List Models.Err) (b : Bool) (h : Models.validate name c = .ok (e, w, b)) :
    b = true ↔ e = [] := by
  cases c with
  | yamlError m =>
      simp [Models.validate] at h
      obtain ⟨he, -, hb⟩ := h
      subst he hb
      simp
  | notFound =>
      simp [Models.validate] at h
      obtain ⟨he, -, hb⟩ := h
      subst he hb
      simp
  | value v =>
      cases v with
      | map data =>
          rw [show Models.validate name (.value (.map data))
              = Except.map (fun ew => (ew.1, ew.2, ew.1.isEmpty))
                  (Models.validate_sections data) from rfl] at h
          cases hs : Models.validate_sections data with
          | error pe => rw [hs] at h; simp [Except.map, pure, Except.pure] at h
          | ok ew =>
              rw [hs] at h
              simp [Except.map, pure, Except.pure] at h
              obtain ⟨he, -, hb⟩ := h
              subst he hb
              simp [List.isEmpty_iff]
      | null => simp [Models.validate] at h; obtain ⟨he, -, hb⟩ := h; subst he hb; simp
      | bool x => simp [Models.validate] at h; obtain ⟨he, -, hb⟩ := h; subst he hb; simp
      | int x => simp [Models.validate] at h; obtain ⟨he, -, hb⟩ := h; subst he hb; simp
      | str x => simp [Models.validate] at h; obtain ⟨he, -, hb⟩ := h; subst he hb; simp
      | list x => simp [Models.validate] at h; obtain ⟨he, -, hb⟩ := h; subst he hb; simp

theorem modelLoop_valid_iff (files : List (String × Models.FileContent))
    (rs : List Models.FileReport) (h : Models.modelLoop files = .ok rs) :
    ∀ r ∈ rs, (r.valid = true ↔ r.errors = []) := by
  induction files generalizing rs with
  | nil => simp [Models.modelLoop] at h; subst h; simp
  | cons p rest ih =>
      obtain ⟨name, c⟩ := p
      unfold Models.modelLoop at h
      by_cases hn : name == "validate.py"
      · rw [if_pos hn] at h
        exact ih rs h
      · rw [if_neg hn] at h
        cases hv : Models.validate name c with
        | error pe => rw [hv] at h; simp [bind, Except.bind] at h
        | ok ewb =>
            obtain ⟨e, w, b⟩ := ewb
            rw [hv] at h
            cases hr : Models.modelLoop rest with
            | error pe => simp [hr, bind, Except.bind] at h
            | ok rs' =>
                simp [hr, bind, Except.bind, pure, Except.pure] at h
                subst h
                intro r hr'
                rcases List.mem_cons.mp hr' with rfl | hm
                · exact validate_valid_iff name c e w b hv
                · exact ih rs' hr r hm

theorem model_te_fold_pos (rs : List Models.FileReport) :
    ∀ a : Nat, a ≠ 0 →
      rs.foldl (fun acc r => if r.valid then acc else acc + r.errors.length) a ≠ 0 := by
  induction rs with
  | nil => intro a ha; simpa using ha
  | cons r rest ih =>
      intro a ha
      simp only [List.foldl_cons]
      by_cases hv : r.valid
      · rw [if_pos hv]; exact ih a ha
      · rw [if_neg hv]; exact ih _ (by omega)

theorem model_te_fold_zero (rs : List Models.FileReport)
    (hval : ∀ r ∈ rs, (r.valid = true ↔ r.errors = [])) :
    (rs.foldl (fun acc r => if r.valid then acc else acc + r.errors.length) 0 = 0
      ↔ ∀ r ∈ rs, r.errors = []) := by
  induction rs with
  | nil => simp
  | cons r rest ih =>
      have hval' : ∀ x ∈ rest, (x.valid = true ↔ x.errors = []) :=
        fun x hx => hval x (List.mem_cons_of_mem r hx)
      simp only [List.foldl_cons]
      by_cases hv : r.valid
      · rw [if_pos hv]
        rw [ih hval']
        have he : r.errors = [] := (hval r (List.mem_cons_self r rest)).mp hv
        simp [he]
      · rw [if_neg hv]
        have he : r.errors ≠ [] := by
          intro hc
          exact hv ((hval r (List.mem_cons_self r rest)).mpr hc)
        have hlen : r.errors.length ≠ 0 := by
          simpa [List.length_eq_zero] using he
        constructor
        · intro hz
          exact absurd hz (model_te_fold_pos rest _ (by omega))
        · intro hall
          exact absurd (hall r (List.mem_cons_self r rest)) he

/-- Claim C5.  The model validator exits 2 exactly when no files were
found; with files present it exits 0 exactly when every checked file
has zero errors and 1 exactly when some checked file produced an
error. -/
theorem models_exit_codes :
    ∀ (files : List (String × Models.FileContent)) (run : Models.ModelRun),
      Models.modelMain files = .ok run →
      ((run.exitCode = 2 ↔ files = [])
       ∧ (files ≠ [] →
           ((run.exitCode = 0 ↔ ∀ r ∈ run.reports, r.errors = [])
            ∧ (run.exitCode = 1 ↔ ∃ r ∈ run.reports, r.errors ≠ [])))) := by
  intro files run h
  unfold Models.modelMain at h
  by_cases hf : files.isEmpty
  · rw [if_pos hf] at h
    simp only [pure, Except.pure, Except.ok.injEq] at h
    subst h
    have hfe : files = [] := List.isEmpty_iff.mp hf
    constructor
    · simp [hfe]
    · intro hne; exact absurd hfe hne
  · rw [if_neg hf] at h
    cases hl : Models.modelLoop files with
    | error pe => rw [hl] at h; simp [bind, Except.bind] at h
    | ok rs =>
        rw [hl] at h
        simp only [bind, Except.bind, pure, Except.pure, Except.ok.injEq] at h
        subst h
        have hval := modelLoop_valid_iff files rs hl
        have hte := model_te_fold_zero rs hval
        have hfe : files ≠ [] := by simpa [List.isEmpty_iff] using hf
        constructor
        · constructor
          · intro h2
            by_cases hz : rs.foldl
                (fun acc r => if r.valid then acc else acc + r.errors.length) 0 = 0 <;>
              simp [Models.ModelRun.exitCode, hz] at h2
          · intro hff; exact absurd hff hfe
        · intro _
          constructor
          · constructor
            · intro h0
              by_cases hz : rs.foldl
                  (fun acc r => if r.valid then acc else acc + r.errors.length) 0 = 0
              · exact hte.mp hz
              · simp [Models.ModelRun.exitCode, hz] at h0
            · intro hall
              have hz := hte.mpr hall
              simp [Models.ModelRun.exitCode, hz]
          · constructor
            · intro h1
              by_cases hz : rs.foldl
                  (fun acc r => if r.valid then acc else acc + r.errors.length) 0 = 0
              · simp [Models.ModelRun.exitCode, hz] at h1
              · have hnall : ¬ ∀ r ∈ rs, r.errors = [] :=
                  fun hall => hz (hte.mpr hall)
                push_neg at hnall
                exact hnall
            · intro hex
              have hz : rs.foldl
                  (fun acc r => if r.valid then acc else acc + r.errors.length) 0 ≠ 0 := by
                intro hz
                obtain ⟨r, hm, hne⟩ := hex
                exact hne (hte.mp hz r hm)
              simp [Models.ModelRun.exitCode, hz]

/-- Witness for `models_exit_codes`: one file whose document root is a
string is invalid, and the run exits 1. -/
theorem models_exit_codes_wit :
    (Models.modelMain [("a.yaml", .value (.str "x"))]
      = .ok ⟨[⟨"a.yaml", [("(root)", "Root must be a YAML mapping/dictionary")], [], false⟩],
             0, 1, 0, 1⟩)
    ∧ (⟨[⟨"a.yaml", [("(root)", "Root must be a YAML mapping/dictionary")], [], false⟩],
          0, 1, 0, 1⟩ : Models.ModelRun).exitCode = 1 := by
  refine ⟨rfl, ?_⟩
  exact (((models_exit_codes [("a.yaml", .value (.str "x"))] _ rfl).2 (by simp)).2).mpr
    ⟨⟨"a.yaml", [("(root)", "Root must be a YAML mapping/dictionary")], [], false⟩,
     by simp, by simp⟩

/-- Claim C6.  Warnings never affect validity or exit status: a
model-config file is valid iff it produced zero errors; the model
validator's exit code is a function of `total_errors` alone (with
files present), and so are the layer validator's and the style
validator's exit codes — their warning counts appear in no exit
formula. -/
theorem warnings_do_not_affect_exit :
    (∀ (name : String) (c : Models.FileContent) (e w : List Models.Err) (b : Bool),
        Models.validate name c = .ok (e, w, b) → (b = true ↔ e = []))
    ∧ (∀ (files : List (String × Models.FileContent)) (run : Models.ModelRun),
        Models.modelMain files = .ok run → files ≠ [] →
          (run.exitCode = if run.total_errors = 0 then 0 else 1)
          ∧ (run.total_errors = 0 ↔ ∀ r ∈ run.reports, r.errors = []))
    ∧ (∀ (files : List (String × Option Yaml)) (sx : String → Bool) (run : Layers.LayerRun),
        Layers.layerMain files sx = .ok run → files ≠ [] →
          (run.exitCode = if run.total_errors ≠ 0 then 1 else 0)
          ∧ run.total_errors = (run.reports.map Layers.errCount).sum)
    ∧ (∀ (files : List (String × Styles.SContent)) (run : Styles.StyleRun),
        Styles.styleMain files = .ok run → files ≠ [] →
          ((run.exitCode = 0 ↔ run.all_errors = [])
           ∧ (run.exitCode = 1 ↔ run.all_errors ≠ []))) := by
  refine ⟨validate_valid_iff, ?_, ?_, ?_⟩
  · intro files run h hne
    unfold Models.modelMain at h
    rw [if_neg (by simpa [List.isEmpty_iff] using hne)] at h
    cases hl : Models.modelLoop files with
    | error pe => rw [hl] at h; simp [bind, Except.bind] at h
    | ok rs =>
        rw [hl] at h
        simp only [bind, Except.bind, pure, Except.pure, Except.ok.injEq] at h
        subst h
        exact ⟨rfl, model_te_fold_zero rs (modelLoop_valid_iff files rs hl)⟩
  · intro files sx run h hne
    unfold Layers.layerMain at h
    rw [if_neg (by simpa [List.isEmpty_iff] using hne)] at h
    cases hl : Layers.layerFilesLoop sx files [] with
    | error pe => rw [hl] at h; simp [bind, Except.bind] at h
    | ok rm =>
        obtain ⟨rs, m⟩ := rm
        rw [hl] at h
        simp only [bind, Except.bind, pure, Except.pure, Except.ok.injEq] at h
        subst h
        exact ⟨rfl, rfl⟩
  · intro files run h hne
    unfold Styles.styleMain at h
    rw [if_neg (by simpa [List.isEmpty_iff] using hne)] at h
    cases hl : Styles.styleFilesLoop files with
    | error pe => rw [hl] at h; simp [bind, Except.bind] at h
    | ok els =>
        rw [hl] at h
        simp only [bind, Except.bind, pure, Except.pure, Except.ok.injEq] at h
        subst h
        constructor
        · constructor
          · intro h0
            by_cases hz : els.flatten.isEmpty
            · exact List.isEmpty_iff.mp hz
            · simp [Styles.StyleRun.exitCode, hz] at h0
          · intro hz
            have hz' : els.flatten.isEmpty = true := by
              rw [List.isEmpty_iff]; exact hz
            simp [Styles.StyleRun.exitCode, hz']
        · constructor
          · intro h1
            by_cases hz : els.flatten.isEmpty
            · simp [Styles.StyleRun.exitCode, hz] at h1
            · simpa [List.isEmpty_iff] using hz
          · intro hz
            have : ¬ els.flatten.isEmpty := by simpa [List.isEmpty_iff] using hz
            simp [Styles.StyleRun.exitCode, this]

/-- Witness for `warnings_do_not_affect_exit`: the validity bit of an
invalid model file matches errors-nonempty, and a clean style run
exits 0. -/
theorem warnings_do_not_affect_exit_wit :
    (Models.validate "a.yaml" (.value (.str "x"))
        = .ok ([("(root)", "Root must be a YAML mapping/dictionary")], [], false))
    ∧ (false = true ↔ ([("(root)", "Root must be a YAML mapping/dictionary")] : List Models.Err) = [])
    ∧ (Styles.styleMain [("t.json", .value (.map [("version", .str "1.0"), ("styles", .map [])]))]
        = .ok ⟨[], 0, 0⟩)
    ∧ (⟨[], 0, 0⟩ : Styles.StyleRun).exitCode = 0 := by
  refine ⟨rfl, ?_, rfl, ?_⟩
  · exact warnings_do_not_affect_exit.1 "a.yaml" (.value (.str "x"))
      [("(root)", "Root must be a YAML mapping/dictionary")] [] false rfl
  · exact ((warnings_do_not_affect_exit.2.2.2
      [("t.json", .value (.map [("version", .str "1.0"), ("styles", .map [])]))]
      ⟨[], 0, 0⟩ rfl (by simp)).1).mpr rfl

theorem pyGetD_of_hasKey (kvs : List (String × Yaml)) (k : String) (d : Yaml)
    (h : hasKey kvs k = true) : pyGetD kvs k d = pyGet kvs k := by
  unfold hasKey at h
  unfold pyGetD pyGet
  cases hg : getKey? kvs k with
  | none => rw [hg] at h; simp at h
  | some v => simp

theorem mem_layer_units_errs_no_dup (l : List (String × Yaml)) :
    ∀ x ∈ Layers.layer_units_errs l, Layers.dupOf x = none := by
  intro x hx
  unfold Layers.layer_units_errs at hx
  dsimp only at hx
  split_ifs at hx <;> simp at hx <;> subst hx <;> rfl

theorem validate_layer_dupfree (l : List (String × Yaml)) (model : Yaml)
    (sx : String → Bool) (e : List Layers.LErr) (w : List Layers.LWarn) (o : Option Yaml)
    (h : Layers.validate_layer l model sx = .ok (e, w, o)) :
    Layers.dupsOfErrs e = [] ∧ o = Layers.layer_id_of l := by
  obtain ⟨se, hse, he, ho⟩ := validate_layer_errs_shape l model sx e w o h
  subst he
  refine ⟨?_, ho⟩
  unfold Layers.dupsOfErrs
  rw [List.filterMap_eq_nil_iff]
  intro x hx
  simp only [List.mem_append] at hx
  rcases hx with hx | hx | hx | hx
  · obtain ⟨i, f, rfl⟩ := mem_layer_req_errs l x hx; rfl
  · exact mem_layer_units_errs_no_dup l x hx
  · rcases layer_style_errs_shape l sx se hse with rfl | ⟨i, sf, rfl⟩
    · simp at hx
    · simp at hx; subst hx; rfl
  · rcases layer_comp_errs_shape l with hc | hc <;> rw [hc] at hx <;> simp at hx
    subst hx; rfl

/-- Claim C10.  A layer whose `id` is absent or falsy is never
registered: processing it leaves `all_layer_ids` unchanged and emits
no duplicate-id error; in particular two files each declaring a layer
with id `""` produce no duplicate-id error and an empty final map. -/
theorem layers_falsy_id_not_registered :
    (∀ (fname : String) (model : Yaml) (sx : String → Bool)
       (l : List (String × Yaml)) (m : Layers.IdMap)
       (e : List Layers.LErr) (w : List Layers.LWarn) (m' : Layers.IdMap),
       (hasKey l "id" = false ∨ (pyGet l "id").truthy = false) →
       Layers.layersLoop fname model sx [.map l] m = .ok (e, w, m') →
       m' = m ∧ Layers.dupsOfErrs e = [])
    ∧ Layers.layerFilesLoop (fun _ => true)
        [("a.yaml", some (.map [("model", .str "gfs"), ("display_name", .str "G"),
            ("layers", .list [.map [("id", .str ""), ("parameter", .str "t"),
              ("title", .str "T"), ("style_file", .str "s.json"),
              ("units", .map [("native", .str "K")]),
              ("levels", .list [.map [("default", .bool true)]])]])])),
         ("b.yaml", some (.map [("model", .str "gfs"), ("display_name", .str "G"),
            ("layers", .list [.map [("id", .str ""), ("parameter", .str "t"),
              ("title", .str "T"), ("style_file", .str "s.json"),
              ("units", .map [("native", .str "K")]),
              ("levels", .list [.map [("default", .bool true)]])]])]))] []
      = .ok ([.report [] [.idPrefixWarn (.str "") "gfs_"],
              .report [] [.idPrefixWarn (.str "") "gfs_"]], []) := by
  constructor
  · intro fname model sx l m e w m' hid h
    simp only [Layers.layersLoop] at h
    cases hv : Layers.validate_layer l model sx with
    | error pe => rw [hv] at h; simp [bind, Except.bind] at h
    | ok ewo =>
        obtain ⟨e1, w1, o⟩ := ewo
        rw [hv] at h
        obtain ⟨hdup, ho⟩ := validate_layer_dupfree l model sx e1 w1 o hv
        have hro : Layers.regLayer m fname o = .ok ([], m) := by
          rw [ho]
          unfold Layers.layer_id_of
          rcases hid with hk | ht
          · rw [if_neg (by simp [hk])]
            rfl
          · by_cases hk : hasKey l "id"
            · rw [if_pos hk]
              have hval : (Layers.layer_id_val l).truthy = false := by
                unfold Layers.layer_id_val
                rw [pyGetD_of_hasKey l "id" (.str "<missing>") hk]
                exact ht
              simp [Layers.regLayer, hval]
            · rw [if_neg (by simp [hk])]
              rfl
        simp only [bind, Except.bind] at h
        rw [hro] at h
        simp only [Layers.layersLoop, bind, Except.bind, pure, Except.pure,
          Except.ok.injEq, Prod.mk.injEq] at h
        obtain ⟨he, -, hm⟩ := h
        subst he
        refine ⟨hm.symm, ?_⟩
        simpa [List.append_nil] using hdup
  · rfl

/-- Witness for `layers_falsy_id_not_registered`: a layer with id `""`
leaves the map unchanged and emits no duplicate error. -/
theorem layers_falsy_id_not_registered_wit :
    ((pyGet [("id", Yaml.str ""), ("parameter", .str "t"), ("title", .str "T"),
        ("style_file", .str "s.json"), ("units", .map [("native", .str "K")]),
        ("levels", .list [.map [("default", .bool true)]])] "id").truthy = false)
    ∧ ([] : Layers.IdMap) = ([] : Layers.IdMap)
    ∧ Layers.dupsOfErrs [] = [] := by
  have h := layers_falsy_id_not_registered.1 "a.yaml" (.str "gfs") (fun _ => true)
    [("id", Yaml.str ""), ("parameter", .str "t"), ("title", .str "T"),
     ("style_file", .str "s.json"), ("units", .map [("native", .str "K")]),
     ("levels", .list [.map [("default", .bool true)]])]
    [] [] [.idPrefixWarn (.str "") "gfs_"] [] (Or.inr rfl) rfl
  exact ⟨rfl, h.1, h.2⟩

theorem pyEq_scalar_right (v w : Yaml) (hw : w.scalarY = true) (h : pyEq v w = true) :
    v.scalarY = true := by
  cases v <;> cases w <;> simp_all [pyEq, Yaml.scalarY, Yaml.isPyInt]

theorem pyEq_trans_scalar (v w k : Yaml) (hw : w.scalarY = true)
    (h1 : pyEq v w = true) (h2 : pyEq w k = true) : pyEq v k = true := by
  cases v <;> cases w <;> cases k <;>
    simp_all [pyEq, Yaml.scalarY, Yaml.isPyInt, Yaml.intVal]

theorem lookupId_append (m m2 : Layers.IdMap) (v : Yaml) :
    Layers.lookupId (m ++ m2) v
      = match Layers.lookupId m v with
        | some f => some f
        | none => Layers.lookupId m2 v := by
  induction m with
  | nil => simp [Layers.lookupId]
  | cons p rest ih =>
      by_cases hp : pyEq v p.1
      · simp [Layers.lookupId, List.find?, hp]
      · simp only [List.cons_append]
        unfold Layers.lookupId
        simp only [List.find?, hp, Bool.false_eq_true, not_false_eq_true]
        exact ih

theorem lookupId_singleton (w : Yaml) (f : String) (v : Yaml) :
    Layers.lookupId [(w, f)] v = if pyEq v w then some f else none := by
  by_cases hp : pyEq v w <;> simp [Layers.lookupId, List.find?, hp]

theorem runSpec_append (m : Layers.IdMap) (a b : List (String × Yaml)) :
    Layers.runSpec m (a ++ b)
      = ((Layers.runSpec m a).1 ++ (Layers.runSpec (Layers.runSpec m a).2 b).1,
         (Layers.runSpec (Layers.runSpec m a).2 b).2) := by
  induction a generalizing m with
  | nil => simp [Layers.runSpec]
  | cons p rest ih =>
      obtain ⟨f, v⟩ := p
      simp only [List.cons_append, Layers.runSpec, List.append_eq]
      rw [ih]
      simp [List.append_assoc]

theorem runSpec_keysScalar (m : Layers.IdMap) (os : List (String × Yaml))
    (hm : Layers.keysScalar m) (ho : Layers.occsScalar os) :
    Layers.keysScalar (Layers.runSpec m os).2 := by
  induction os generalizing m with
  | nil => exact hm
  | cons p rest ih =>
      obtain ⟨f, v⟩ := p
      have hv : v.scalarY = true := ho (f, v) (List.mem_cons_self _ _)
      have ho' : Layers.occsScalar rest := fun q hq => ho q (List.mem_cons_of_mem _ hq)
      simp only [Layers.runSpec]
      unfold Layers.regSpec
      cases hl : Layers.lookupId m v with
      | some g => exact ih m hm ho'
      | none =>
          refine ih _ ?_ ho'
          intro q hq
          rcases List.mem_append.mp hq with hq | hq
          · exact hm q hq
          · simp at hq; subst hq; exact hv

theorem lookupId_runSpec (os : List (String × Yaml)) :
    ∀ (m : Layers.IdMap) (v : Yaml), Layers.keysScalar m → Layers.occsScalar os →
      Layers.lookupId (Layers.runSpec m os).2 v
        = match Layers.lookupId m v with
          | some f => some f
          | none => Layers.firstOwner os v := by
  induction os with
  | nil =>
      intro m v _ _
      simp only [Layers.runSpec, Layers.firstOwner]
      cases Layers.lookupId m v <;> rfl
  | cons p rest ih =>
      intro m v hm ho
      obtain ⟨f, w⟩ := p
      have hw : w.scalarY = true := ho (f, w) (List.mem_cons_self _ _)
      have ho' : Layers.occsScalar rest := fun q hq => ho q (List.mem_cons_of_mem _ hq)
      simp only [Layers.runSpec]
      unfold Layers.regSpec
      cases hl : Layers.lookupId m w with
      | some g =>
          rw [ih m v hm ho']
          cases hv : Layers.lookupId m v with
          | some gv => rfl
          | none =>
              simp only [Layers.firstOwner]
              by_cases hp : pyEq v w
              · -- v equals the occurrence w, and w is already in m, so v
                -- would also be found in m, contradicting hv
                exfalso
                have hvn : m.find? (fun p => pyEq v p.1) = none := by
                  unfold Layers.lookupId at hv
                  exact Option.map_eq_none'.mp hv
                have hnone := List.find?_eq_none.mp hvn
                unfold Layers.lookupId at hl
                obtain ⟨q, hq1, -⟩ := Option.map_eq_some'.mp hl
                have hqm := List.mem_of_find?_eq_some hq1
                have hqp : pyEq w q.1 = true := by
                  have := List.find?_some hq1
                  simpa using this
                have hvq : pyEq v q.1 = true := pyEq_trans_scalar v w q.1 hw hp hqp
                exact (hnone q hqm) (by simpa using hvq)
              · rw [if_neg hp]
      | none =>
          have hm' : Layers.keysScalar (m ++ [(w, f)]) := by
            intro q hq
            rcases List.mem_append.mp hq with hq | hq
            · exact hm q hq
            · simp at hq; subst hq; exact hw
          rw [ih _ v hm' ho']
          rw [lookupId_append m [(w, f)] v, lookupId_singleton w f v]
          cases hv : Layers.lookupId m v with
          | some gv => rfl
          | none =>
              simp only [Layers.firstOwner]
              by_cases hp : pyEq v w
              · rw [if_pos hp, if_pos hp]
              · rw [if_neg hp, if_neg hp]

theorem lookupId_runSpec_mono (os : List (String × Yaml)) :
    ∀ (m : Layers.IdMap) (v : Yaml) (f : String), Layers.lookupId m v = some f →
      Layers.lookupId (Layers.runSpec m os).2 v = some f := by
  induction os with
  | nil => intro m v f h; exact h
  | cons p rest ih =>
      intro m v f h
      obtain ⟨g, w⟩ := p
      simp only [Layers.runSpec]
      unfold Layers.regSpec
      cases hl : Layers.lookupId m w with
      | some q => exact ih m v f h
      | none =>
          refine ih _ v f ?_
          rw [lookupId_append m [(w, g)] v, h]

theorem runSpec_emission_lookup (os : List (String × Yaml)) :
    ∀ (m : Layers.IdMap) (v : Yaml) (F : String),
      (v, F) ∈ (Layers.runSpec m os).1 →
      Layers.lookupId (Layers.runSpec m os).2 v = some F := by
  induction os with
  | nil => intro m v F h; simp [Layers.runSpec] at h
  | cons p rest ih =>
      intro m v F h
      obtain ⟨g, w⟩ := p
      simp only [Layers.runSpec] at h ⊢
      unfold Layers.regSpec at h ⊢
      cases hl : Layers.lookupId m w with
      | some q =>
          rw [hl] at h
          simp only [List.cons_append, List.nil_append, List.mem_cons] at h
          rcases h with h | h
          · obtain ⟨rfl, rfl⟩ := Prod.mk.injEq .. |>.mp h
            exact lookupId_runSpec_mono rest m v F hl
          · exact ih m v F h
      | none =>
          rw [hl] at h
          simp only [List.nil_append] at h
          exact ih _ v F h

theorem runSpec_dupExpect (os : List (String × Yaml)) :
    ∀ (prior : List (String × Yaml)),
      Layers.occsScalar prior → Layers.occsScalar os →
      (Layers.runSpec (Layers.runSpec [] prior).2 os).1 = Layers.dupExpect prior os := by
  induction os with
  | nil => intro prior _ _; rfl
  | cons p rest ih =>
      intro prior hp ho
      obtain ⟨f, v⟩ := p
      have hv : v.scalarY = true := ho (f, v) (List.mem_cons_self _ _)
      have ho' : Layers.occsScalar rest := fun q hq => ho q (List.mem_cons_of_mem _ hq)
      have hmz : Layers.keysScalar ([] : Layers.IdMap) := by intro q hq; simp at hq
      have hlk : Layers.lookupId (Layers.runSpec [] prior).2 v
          = Layers.firstOwner prior v := by
        rw [lookupId_runSpec prior [] v hmz hp]
        rfl
      simp only [Layers.runSpec, Layers.dupExpect]
      unfold Layers.regSpec
      cases hf : Layers.firstOwner prior v with
      | some F =>
          rw [hlk.trans hf]
          rw [ih prior hp ho']
          rfl
      | none =>
          rw [hlk.trans hf]
          have hm' : (Layers.runSpec [] prior).2 ++ [(v, f)]
              = (Layers.runSpec [] (prior ++ [(f, v)])).2 := by
            rw [runSpec_append]
            simp only [Layers.runSpec]
            unfold Layers.regSpec
            rw [hlk.trans hf]
          have hp' : Layers.occsScalar (prior ++ [(f, v)]) := by
            intro q hq
            rcases List.mem_append.mp hq with hq | hq
            · exact hp q hq
            · simp at hq; subst hq; exact hv
          simp only [List.nil_append]
          rw [hm', ih (prior ++ [(f, v)]) hp' ho']

theorem occList_append (a b : List (String × Option Yaml)) :
    Layers.occList (a ++ b) = Layers.occList a ++ Layers.occList b := by
  induction a with
  | nil => simp [Layers.occList]
  | cons p rest ih => simp [Layers.occList, ih]

theorem occList_scalar_take (files : List (String × Option Yaml)) (k : Nat)
    (h : Layers.occsScalar (Layers.occList files)) :
    Layers.occsScalar (Layers.occList (files.take k)) := by
  intro q hq
  refine h q ?_
  have : files = files.take k ++ files.drop k := (List.take_append_drop k files).symm
  rw [this, occList_append]
  exact List.mem_append_left _ hq


theorem dupsOfErrs_append (a b : List Layers.LErr) :
    Layers.dupsOfErrs (a ++ b) = Layers.dupsOfErrs a ++ Layers.dupsOfErrs b := by
  unfold Layers.dupsOfErrs
  exact List.filterMap_append a b Layers.dupOf

theorem regLayer_scalar_eq (m : Layers.IdMap) (fname : String) (v : Yaml)
    (hs : v.scalarY = true) (ht : v.truthy = true) :
    Layers.regLayer m fname (some v)
      = (match Layers.lookupId m v with
         | some f => .ok ([.duplicateId v f], m)
         | none => .ok ([], m ++ [(v, fname)])) := by
  cases v with
  | list l => simp [Yaml.scalarY] at hs
  | map m2 => simp [Yaml.scalarY] at hs
  | null => simp [Yaml.truthy] at ht
  | bool b => unfold Layers.regLayer; dsimp only; rw [if_pos ht]
  | int n => unfold Layers.regLayer; dsimp only; rw [if_pos ht]
  | str s => unfold Layers.regLayer; dsimp only; rw [if_pos ht]

theorem regLayer_some_scalar (m : Layers.IdMap) (fname : String) (v : Yaml)
    (dupE : List Layers.LErr) (m1 : Layers.IdMap) (ht : v.truthy = true)
    (h : Layers.regLayer m fname (some v) = .ok (dupE, m1)) : v.scalarY = true := by
  cases v with
  | list l =>
      unfold Layers.regLayer at h; dsimp only at h; rw [if_pos ht] at h; simp at h
  | map m2 =>
      unfold Layers.regLayer at h; dsimp only at h; rw [if_pos ht] at h; simp at h
  | null => rfl
  | bool b => rfl
  | int n => rfl
  | str s => rfl

theorem occsOfLayers_cons_nonmap (lay : Yaml) (rest : List Yaml)
    (hnm : lay.isMapV = false) :
    Layers.occsOfLayers (lay :: rest) = Layers.occsOfLayers rest := by
  cases lay <;> simp [Yaml.isMapV] at hnm ⊢ <;> rfl

theorem isMapV_exists (lay : Yaml) (h : lay.isMapV = true) :
    ∃ l, lay = Yaml.map l := by
  cases lay <;> simp [Yaml.isMapV] at h ⊢

theorem layersLoop_cons_nonmap (fname : String) (model : Yaml) (sx : String → Bool)
    (lay : Yaml) (rest : List Yaml) (m : Layers.IdMap) (hnm : lay.isMapV = false) :
    Layers.layersLoop fname model sx (lay :: rest) m
      = (do
          let r ← Layers.layersLoop fname model sx rest m
          pure (Layers.LErr.layerEntryNotObject lay.typeName :: r.1, r.2.1, r.2.2)) := by
  cases lay <;> simp [Yaml.isMapV] at hnm ⊢ <;> rfl

theorem layersLoop_spec (fname : String) (model : Yaml) (sx : String → Bool) :
    ∀ (ls : List Yaml) (m : Layers.IdMap) (e : List Layers.LErr)
      (w : List Layers.LWarn) (m' : Layers.IdMap),
      Layers.layersLoop fname model sx ls m = .ok (e, w, m') →
      Layers.dupsOfErrs e
          = (Layers.runSpec m ((Layers.occsOfLayers ls).map (fun v => (fname, v)))).1
        ∧ m' = (Layers.runSpec m ((Layers.occsOfLayers ls).map (fun v => (fname, v)))).2
        ∧ (∀ v ∈ Layers.occsOfLayers ls, v.scalarY = true) := by
  intro ls
  induction ls with
  | nil =>
      intro m e w m' h
      simp only [Layers.layersLoop, Except.ok.injEq, Prod.mk.injEq] at h
      obtain ⟨he, -, hm⟩ := h
      subst he
      exact ⟨rfl, hm.symm, by simp [Layers.occsOfLayers]⟩
  | cons lay rest ih =>
      intro m e w m' h
      by_cases hIs : lay.isMapV = true
      · obtain ⟨l, rfl⟩ := isMapV_exists lay hIs
        simp only [Layers.layersLoop] at h
        cases hv : Layers.validate_layer l model sx with
        | error pe => rw [hv] at h; simp [bind, Except.bind] at h
        | ok ewo =>
            obtain ⟨e1, w1, o⟩ := ewo
            rw [hv] at h
            simp only [bind, Except.bind] at h
            obtain ⟨hdup, ho⟩ := validate_layer_dupfree l model sx e1 w1 o hv
            cases hreg : Layers.regLayer m fname o with
            | error pe => rw [hreg] at h; simp at h
            | ok dm =>
                obtain ⟨dupE, m1⟩ := dm
                rw [hreg] at h
                dsimp only at h
                cases hr : Layers.layersLoop fname model sx rest m1 with
                | error pe => rw [hr] at h; simp at h
                | ok rwm =>
                    obtain ⟨rE, rW, m2⟩ := rwm
                    rw [hr] at h
                    simp only [pure, Except.pure, Except.ok.injEq, Prod.mk.injEq] at h
                    obtain ⟨he, -, hm⟩ := h
                    subst he
                    obtain ⟨ihd, ihm, ihs⟩ := ih m1 rE rW m2 hr
                    rw [ho] at hreg
                    unfold Layers.layer_id_of at hreg
                    by_cases hk : hasKey l "id"
                    · rw [if_pos hk] at hreg
                      have hval : Layers.layer_id_val l = pyGet l "id" :=
                        pyGetD_of_hasKey l "id" (.str "<missing>") hk
                      rw [hval] at hreg
                      by_cases ht : (pyGet l "id").truthy
                      · -- a registrable occurrence
                        have hs : (pyGet l "id").scalarY = true :=
                          regLayer_some_scalar m fname _ dupE m1 ht hreg
                        rw [regLayer_scalar_eq m fname _ hs ht] at hreg
                        have hocc : Layers.occsOfLayers (Yaml.map l :: rest)
                            = pyGet l "id" :: Layers.occsOfLayers rest := by
                          simp [Layers.occsOfLayers, hk, ht]
                        rw [hocc]
                        simp only [List.map_cons, Layers.runSpec]
                        unfold Layers.regSpec
                        cases hl : Layers.lookupId m (pyGet l "id") with
                        | some f =>
                            rw [hl] at hreg
                            simp only [Except.ok.injEq, Prod.mk.injEq] at hreg
                            obtain ⟨hde, hm1⟩ := hreg
                            subst hde hm1
                            refine ⟨?_, ?_, ?_⟩
                            · rw [dupsOfErrs_append, dupsOfErrs_append, hdup, ihd]
                              rfl
                            · rw [hm.symm, ihm]
                            · intro v hv'
                              rcases List.mem_cons.mp hv' with rfl | hv'
                              · exact hs
                              · exact ihs v hv'
                        | none =>
                            rw [hl] at hreg
                            simp only [Except.ok.injEq, Prod.mk.injEq] at hreg
                            obtain ⟨hde, hm1⟩ := hreg
                            subst hde
                            rw [← hm1] at ihd ihm
                            refine ⟨?_, ?_, ?_⟩
                            · rw [dupsOfErrs_append, dupsOfErrs_append, hdup, ihd]
                              rfl
                            · rw [hm.symm, ihm]
                            · intro v hv'
                              rcases List.mem_cons.mp hv' with rfl | hv'
                              · exact hs
                              · exact ihs v hv'
                      · -- id present but falsy: not registered
                        unfold Layers.regLayer at hreg
                        dsimp only at hreg
                        rw [if_neg ht] at hreg
                        simp only [Except.ok.injEq, Prod.mk.injEq] at hreg
                        obtain ⟨hde, hm1⟩ := hreg
                        subst hde hm1
                        have hocc : Layers.occsOfLayers (Yaml.map l :: rest)
                            = Layers.occsOfLayers rest := by
                          simp [Layers.occsOfLayers, hk, ht]
                        rw [hocc]
                        refine ⟨?_, hm.symm.trans ihm, ihs⟩
                        rw [dupsOfErrs_append, dupsOfErrs_append, hdup, ihd]
                        rfl
                    · rw [if_neg hk] at hreg
                      simp only [Layers.regLayer, Except.ok.injEq, Prod.mk.injEq] at hreg
                      obtain ⟨hde, hm1⟩ := hreg
                      subst hde hm1
                      have hocc : Layers.occsOfLayers (Yaml.map l :: rest)
                          = Layers.occsOfLayers rest := by
                        simp [Layers.occsOfLayers, hk]
                      rw [hocc]
                      refine ⟨?_, hm.symm.trans ihm, ihs⟩
                      rw [dupsOfErrs_append, dupsOfErrs_append, hdup, ihd]
                      rfl
      · have hnm : lay.isMapV = false := by simpa using hIs
        rw [layersLoop_cons_nonmap fname model sx lay rest m hnm] at h
        cases hr : Layers.layersLoop fname model sx rest m with
        | error pe => rw [hr] at h; simp [bind, Except.bind] at h
        | ok rwm =>
            obtain ⟨rE, rW, m2⟩ := rwm
            rw [hr] at h
            simp only [bind, Except.bind, pure, Except.pure, Except.ok.injEq,
              Prod.mk.injEq] at h
            obtain ⟨he, -, hm⟩ := h
            subst he
            obtain ⟨ihd, ihm, ihs⟩ := ih m rE rW m2 hr
            rw [occsOfLayers_cons_nonmap lay rest hnm]
            exact ⟨ihd, hm.symm.trans ihm, ihs⟩

theorem fieldsCheckGo_map (fs : List String) (d : List (String × Yaml)) :
    ∃ fe, Layers.fieldsCheckGo fs (.map d) = .ok fe ∧ Layers.dupsOfErrs fe = [] := by
  induction fs with
  | nil => exact ⟨[], rfl, rfl⟩
  | cons f rest ih =>
      obtain ⟨fe, hfe, hd⟩ := ih
      refine ⟨(if hasKey d f then [] else [.missingModelField f]) ++ fe, ?_, ?_⟩
      · simp only [Layers.fieldsCheckGo, pyContainsStr, bind, Except.bind, hfe,
          pure, Except.pure]
      · rw [dupsOfErrs_append, hd, List.append_nil]
        by_cases hk : hasKey d f
        · rw [if_pos hk]; rfl
        · rw [if_neg hk]; rfl

theorem validate_file_spec (fname : String) (content : Option Yaml)
    (sx : String → Bool) (m : Layers.IdMap) (r : Layers.LReport) (m' : Layers.IdMap)
    (h : Layers.validate_file fname content sx m = .ok (r, m')) :
    Layers.dupsOf r = (Layers.runSpec m (Layers.fileOccPairs (fname, content))).1
      ∧ m' = (Layers.runSpec m (Layers.fileOccPairs (fname, content))).2
      ∧ ∀ v ∈ Layers.occsOfFile content, v.scalarY = true := by
  match content with
  | none =>
      simp only [Layers.validate_file, Except.ok.injEq, Prod.mk.injEq] at h
      obtain ⟨hr, hm⟩ := h
      subst hr; subst hm
      exact ⟨rfl, rfl, fun v hv => by simp [Layers.occsOfFile] at hv⟩
  | some (.null) =>
      simp [Layers.validate_file, Layers.fieldsCheckGo, Layers.REQUIRED_MODEL_FIELDS,
        pyContainsStr, pyGetAttrD, bind, Except.bind] at h
  | some (.bool b) =>
      simp [Layers.validate_file, Layers.fieldsCheckGo, Layers.REQUIRED_MODEL_FIELDS,
        pyContainsStr, pyGetAttrD, bind, Except.bind] at h
  | some (.int n) =>
      simp [Layers.validate_file, Layers.fieldsCheckGo, Layers.REQUIRED_MODEL_FIELDS,
        pyContainsStr, pyGetAttrD, bind, Except.bind] at h
  | some (.str s) =>
      simp [Layers.validate_file, Layers.fieldsCheckGo, Layers.REQUIRED_MODEL_FIELDS,
        pyContainsStr, pyGetAttrD, bind, Except.bind, pure, Except.pure] at h
  | some (.list xs) =>
      simp [Layers.validate_file, Layers.fieldsCheckGo, Layers.REQUIRED_MODEL_FIELDS,
        pyContainsStr, pyGetAttrD, bind, Except.bind, pure, Except.pure] at h
  | some (.map d) =>
      obtain ⟨fe, hfe, hfd⟩ := fieldsCheckGo_map Layers.REQUIRED_MODEL_FIELDS d
      simp only [Layers.validate_file, bind, Except.bind, hfe, pyGetAttrD] at h
      cases hlv : pyGetD d "layers" (.list []) with
      | list l =>
          rw [hlv] at h
          simp only [Yaml.isListV, if_true] at h
          cases hll : Layers.layersLoop fname (pyGetD d "model" (.str "unknown")) sx l m with
          | error pe => rw [hll] at h; simp at h
          | ok t =>
              obtain ⟨le, lw, m2⟩ := t
              rw [hll] at h
              simp only [pure, Except.pure, Except.ok.injEq, Prod.mk.injEq] at h
              obtain ⟨hr, hm⟩ := h
              subst hr
              obtain ⟨hd, hm2, hs⟩ :=
                layersLoop_spec fname (pyGetD d "model" (.str "unknown")) sx l m le lw m2 hll
              have hocc : Layers.fileOccPairs (fname, some (.map d))
                  = (Layers.occsOfLayers l).map (fun v => (fname, v)) := by
                simp [Layers.fileOccPairs, Layers.occsOfFile, hlv]
              refine ⟨?_, ?_, ?_⟩
              · rw [hocc]
                show Layers.dupsOfErrs (fe ++ [] ++ le) = _
                rw [dupsOfErrs_append, dupsOfErrs_append, hfd, hd]
                rfl
              · rw [← hm, hm2, hocc]
              · intro v hv
                refine hs v ?_
                simpa [Layers.occsOfFile, hlv] using hv
      | null =>
          rw [hlv] at h
          simp only [Yaml.isListV, Bool.false_eq_true, if_false, Layers.layersLoop,
            pure, Except.pure, Except.ok.injEq, Prod.mk.injEq] at h
          obtain ⟨hr, hm⟩ := h
          subst hr
          refine ⟨?_, ?_, ?_⟩
          · show Layers.dupsOfErrs (fe ++ [.layersNotList] ++ []) = _
            rw [dupsOfErrs_append, dupsOfErrs_append, hfd]
            simp [Layers.fileOccPairs, Layers.occsOfFile, hlv, Layers.runSpec,
              Layers.dupsOfErrs, Layers.dupOf]
          · rw [← hm]
            simp [Layers.fileOccPairs, Layers.occsOfFile, hlv, Layers.runSpec]
          · intro v hv
            simp [Layers.occsOfFile, hlv] at hv
      | bool b =>
          rw [hlv] at h
          simp only [Yaml.isListV, Bool.false_eq_true, if_false, Layers.layersLoop,
            pure, Except.pure, Except.ok.injEq, Prod.mk.injEq] at h
          obtain ⟨hr, hm⟩ := h
          subst hr
          refine ⟨?_, ?_, ?_⟩
          · show Layers.dupsOfErrs (fe ++ [.layersNotList] ++ []) = _
            rw [dupsOfErrs_append, dupsOfErrs_append, hfd]
            simp [Layers.fileOccPairs, Layers.occsOfFile, hlv, Layers.runSpec,
              Layers.dupsOfErrs, Layers.dupOf]
          · rw [← hm]
            simp [Layers.fileOccPairs, Layers.occsOfFile, hlv, Layers.runSpec]
          · intro v hv
            simp [Layers.occsOfFile, hlv] at hv
      | int n =>
          rw [hlv] at h
          simp only [Yaml.isListV, Bool.false_eq_true, if_false, Layers.layersLoop,
            pure, Except.pure, Except.ok.injEq, Prod.mk.injEq] at h
          obtain ⟨hr, hm⟩ := h
          subst hr
          refine ⟨?_, ?_, ?_⟩
          · show Layers.dupsOfErrs (fe ++ [.layersNotList] ++ []) = _
            rw [dupsOfErrs_append, dupsOfErrs_append, hfd]
            simp [Layers.fileOccPairs, Layers.occsOfFile, hlv, Layers.runSpec,
              Layers.dupsOfErrs, Layers.dupOf]
          · rw [← hm]
            simp [Layers.fileOccPairs, Layers.occsOfFile, hlv, Layers.runSpec]
          · intro v hv
            simp [Layers.occsOfFile, hlv] at hv
      | str s =>
          rw [hlv] at h
          simp only [Yaml.isListV, Bool.false_eq_true, if_false, Layers.layersLoop,
            pure, Except.pure, Except.ok.injEq, Prod.mk.injEq] at h
          obtain ⟨hr, hm⟩ := h
          subst hr
          refine ⟨?_, ?_, ?_⟩
          · show Layers.dupsOfErrs (fe ++ [.layersNotList] ++ []) = _
            rw [dupsOfErrs_append, dupsOfErrs_append, hfd]
            simp [Layers.fileOccPairs, Layers.occsOfFile, hlv, Layers.runSpec,
              Layers.dupsOfErrs, Layers.dupOf]
          · rw [← hm]
            simp [Layers.fileOccPairs, Layers.occsOfFile, hlv, Layers.runSpec]
          · intro v hv
            simp [Layers.occsOfFile, hlv] at hv
      | map d2 =>
          rw [hlv] at h
          simp only [Yaml.isListV, Bool.false_eq_true, if_false, Layers.layersLoop,
            pure, Except.pure, Except.ok.injEq, Prod.mk.injEq] at h
          obtain ⟨hr, hm⟩ := h
          subst hr
          refine ⟨?_, ?_, ?_⟩
          · show Layers.dupsOfErrs (fe ++ [.layersNotList] ++ []) = _
            rw [dupsOfErrs_append, dupsOfErrs_append, hfd]
            simp [Layers.fileOccPairs, Layers.occsOfFile, hlv, Layers.runSpec,
              Layers.dupsOfErrs, Layers.dupOf]
          · rw [← hm]
            simp [Layers.fileOccPairs, Layers.occsOfFile, hlv, Layers.runSpec]
          · intro v hv
            simp [Layers.occsOfFile, hlv] at hv

theorem occList_take_succ (files : List (String × Option Yaml)) (k : Nat)
    (hk : k < files.length) :
    Layers.occList (files.take (k + 1))
      = Layers.occList (files.take k)
        ++ Layers.fileOccPairs (files.getD k ("", none)) := by
  induction files generalizing k with
  | nil => simp at hk
  | cons p rest ih =>
      cases k with
      | zero => simp [Layers.occList]
      | succ k =>
          have hk' : k < rest.length := by simpa using hk
          simp only [List.take_succ_cons, Layers.occList, List.getD_cons_succ,
            List.append_assoc]
          rw [ih k hk']

theorem occList_take_drop (files : List (String × Option Yaml)) (k : Nat) :
    Layers.occList files
      = Layers.occList (files.take k) ++ Layers.occList (files.drop k) := by
  conv_lhs => rw [← List.take_append_drop k files]
  exact occList_append _ _

theorem layerFilesLoop_spec (sx : String → Bool) :
    ∀ (files : List (String × Option Yaml)) (m : Layers.IdMap)
      (rs : List Layers.LReport) (m' : Layers.IdMap),
      Layers.layerFilesLoop sx files m = .ok (rs, m') →
      rs.length = files.length
        ∧ m' = (Layers.runSpec m (Layers.occList files)).2
        ∧ Layers.occsScalar (Layers.occList files)
        ∧ ∀ k, k < files.length →
            Layers.dupsOf (rs.getD k .loadError)
              = (Layers.runSpec
                  (Layers.runSpec m (Layers.occList (files.take k))).2
                  (Layers.fileOccPairs (files.getD k ("", none)))).1 := by
  intro files
  induction files with
  | nil =>
      intro m rs m' h
      simp only [Layers.layerFilesLoop, Except.ok.injEq, Prod.mk.injEq] at h
      obtain ⟨hrs, hm⟩ := h
      subst hrs
      refine ⟨rfl, hm.symm, ?_, ?_⟩
      · intro q hq; simp [Layers.occList] at hq
      · intro k hk; simp at hk
  | cons p rest ih =>
      intro m rs m' h
      obtain ⟨n, c⟩ := p
      simp only [Layers.layerFilesLoop] at h
      cases hvf : Layers.validate_file n c sx m with
      | error pe => rw [hvf] at h; simp [bind, Except.bind] at h
      | ok rm1 =>
          obtain ⟨r, m1⟩ := rm1
          rw [hvf] at h
          simp only [bind, Except.bind] at h
          cases hlp : Layers.layerFilesLoop sx rest m1 with
          | error pe => rw [hlp] at h; simp at h
          | ok rm2 =>
              obtain ⟨rs', m2⟩ := rm2
              rw [hlp] at h
              simp only [pure, Except.pure, Except.ok.injEq, Prod.mk.injEq] at h
              obtain ⟨hrs, hm⟩ := h
              subst hrs
              obtain ⟨hd, hm1, hs1⟩ := validate_file_spec n c sx m r m1 hvf
              obtain ⟨hlen, hm2, hsc, hper⟩ := ih m1 rs' m2 hlp
              have hocc : Layers.occList ((n, c) :: rest)
                  = Layers.fileOccPairs (n, c) ++ Layers.occList rest := rfl
              refine ⟨?_, ?_, ?_, ?_⟩
              · simp [hlen]
              · rw [← hm, hm2, hm1, hocc, runSpec_append]
              · intro q hq
                rw [hocc] at hq
                rcases List.mem_append.mp hq with hq | hq
                · obtain ⟨v, hv, rfl⟩ := List.mem_map.mp hq
                  exact hs1 v hv
                · exact hsc q hq
              · intro k hk
                cases k with
                | zero =>
                    simp only [List.getD_cons_zero, List.take_zero]
                    exact hd
                | succ k =>
                    have hk' : k < rest.length := by simpa using hk
                    simp only [List.getD_cons_succ, List.take_succ_cons]
                    rw [hper k hk', hm1]
                    rw [show Layers.occList ((n, c) :: rest.take k)
                        = Layers.fileOccPairs (n, c) ++ Layers.occList (rest.take k)
                      from rfl]
                    rw [runSpec_append]

/-- Claim C4.  Duplicate layer-id ownership: in a successful layer-validator
run over `files` (processed in order), the final id map resolves every id
value to the file of its first registrable occurrence; each file's report
carries exactly the duplicate errors `dupExpect` prescribes — one error per
occurrence of an already-seen id, naming the owning file — relative to the
occurrences of the earlier files; and every reported duplicate pair `(v, F)`
names as `F` the file of the first occurrence of `v` across the whole run. -/
theorem layers_duplicate_id_ownership (files : List (String × Option Yaml))
    (sx : String → Bool) (run : Layers.LayerRun)
    (h : Layers.layerMain files sx = .ok run) :
    run.reports.length = files.length
      ∧ (∀ v, Layers.lookupId run.idMap v
            = Layers.firstOwner (Layers.occList files) v)
      ∧ (∀ k, k < files.length →
          Layers.dupsOf (run.reports.getD k .loadError)
            = Layers.dupExpect (Layers.occList (files.take k))
                (Layers.fileOccPairs (files.getD k ("", none))))
      ∧ (∀ v F rep, rep ∈ run.reports → (v, F) ∈ Layers.dupsOf rep →
          Layers.firstOwner (Layers.occList files) v = some F) := by
  unfold Layers.layerMain at h
  by_cases hemp : files.isEmpty
  · rw [if_pos hemp] at h
    have hf : files = [] := List.isEmpty_iff.mp hemp
    subst hf
    simp only [Except.ok.injEq] at h
    subst h
    refine ⟨rfl, fun v => rfl, ?_, ?_⟩
    · intro k hk; simp at hk
    · intro v F rep hrep; simp at hrep
  · rw [if_neg hemp] at h
    cases hloop : Layers.layerFilesLoop sx files [] with
    | error pe => rw [hloop] at h; simp [bind, Except.bind] at h
    | ok rm =>
        obtain ⟨rs, mfin⟩ := rm
        rw [hloop] at h
        simp only [bind, Except.bind, pure, Except.pure, Except.ok.injEq] at h
        subst h
        obtain ⟨hlen, hm, hsc, hper⟩ := layerFilesLoop_spec sx files [] rs mfin hloop
        have hmz : Layers.keysScalar ([] : Layers.IdMap) := fun q hq => by simp at hq
        have hown : ∀ v, Layers.lookupId mfin v
            = Layers.firstOwner (Layers.occList files) v := by
          intro v
          rw [hm]
          exact lookupId_runSpec (Layers.occList files) [] v hmz hsc
        refine ⟨hlen, hown, ?_, ?_⟩
        · intro k hk
          rw [hper k hk]
          refine runSpec_dupExpect _ _ (occList_scalar_take files k hsc) ?_
          intro q hq
          refine hsc q ?_
          rw [occList_take_drop files (k + 1), occList_take_succ files k hk]
          exact List.mem_append_left _ (List.mem_append_right _ hq)
        · intro v F rep hrep hvF
          obtain ⟨i, hi, hrs⟩ := List.getElem_of_mem hrep
          have hik : i < files.length := hlen ▸ hi
          have hgd : rs.getD i .loadError = rep := by
            rw [List.getD_eq_getElem rs .loadError hi, hrs]
          rw [← hgd, hper i hik] at hvF
          have hemit := runSpec_emission_lookup _ _ v F hvF
          have hpre : (Layers.runSpec
              (Layers.runSpec [] (Layers.occList (files.take i))).2
              (Layers.fileOccPairs (files.getD i ("", none)))).2
              = (Layers.runSpec [] (Layers.occList (files.take (i + 1)))).2 := by
            rw [occList_take_succ files i hik, runSpec_append]
          rw [hpre] at hemit
          have hfin : Layers.lookupId mfin v = some F := by
            rw [hm, occList_take_drop files (i + 1), runSpec_append]
            exact lookupId_runSpec_mono _ _ v F hemit
          rw [← hown v]
          exact hfin

/-- Witness for `layers_duplicate_id_ownership`: two files both declaring a
layer with id `gfs_temp`; the second file's report carries exactly one
duplicate pair naming `a.yaml`, and `a.yaml` is the first owner of the id
across the run. -/
theorem layers_duplicate_id_ownership_wit :
    Layers.layerMain gfsTempFiles (fun _ => true)
        = .ok ⟨[.report [] [], .report [.duplicateId (.str "gfs_temp") "a.yaml"] []],
               [(.str "gfs_temp", "a.yaml")], 1, 0, 1⟩
      ∧ Layers.dupsOf
          (([Layers.LReport.report [] [],
             .report [.duplicateId (.str "gfs_temp") "a.yaml"] []]).getD 1 .loadError)
        = Layers.dupExpect (Layers.occList (gfsTempFiles.take 1))
            (Layers.fileOccPairs (gfsTempFiles.getD 1 ("", none)))
      ∧ Layers.dupExpect (Layers.occList (gfsTempFiles.take 1))
            (Layers.fileOccPairs (gfsTempFiles.getD 1 ("", none)))
        = [(.str "gfs_temp", "a.yaml")]
      ∧ Layers.firstOwner (Layers.occList gfsTempFiles) (.str "gfs_temp")
        = some "a.yaml" := by
  have h := layers_duplicate_id_ownership gfsTempFiles (fun _ => true)
    ⟨[.report [] [], .report [.duplicateId (.str "gfs_temp") "a.yaml"] []],
     [(.str "gfs_temp", "a.yaml")], 1, 0, 1⟩ rfl
  refine ⟨rfl, ?_, rfl, ?_⟩
  · exact h.2.2.1 1 (by decide)
  · exact h.2.2.2 (.str "gfs_temp") "a.yaml"
      (.report [.duplicateId (.str "gfs_temp") "a.yaml"] [])
      (by simp) (by simp [Layers.dupsOf, Layers.dupsOfErrs, Layers.dupOf])

theorem validate_transformS_id (t : Yaml) (p f : String) :
    Styles.validate_transformS (fun l => l) t p f
      = Styles.validate_transform t p f := rfl

theorem validate_color_by_speedS_id (c : Yaml) (p f : String) :
    Styles.validate_color_by_speedS (fun l => l) c p f
      = Styles.validate_color_by_speed c p f := rfl

theorem validate_style_specificS_id (st : List (String × Yaml)) (ty : Yaml)
    (p f : String) :
    Styles.validate_style_specificS (fun l => l) st ty p f
      = Styles.validate_style_specific st ty p f := rfl

theorem validate_styleS_id (sid : String) (st : Yaml) (p f : String) :
    Styles.validate_styleS (fun l => l) sid st p f
      = Styles.validate_style sid st p f := rfl

theorem stylesLoopS_id (file : String) :
    ∀ l, Styles.stylesLoopS (fun x => x) file l = Styles.stylesLoop file l := by
  intro l
  induction l with
  | nil => rfl
  | cons p rest ih =>
      obtain ⟨sid, st⟩ := p
      simp only [Styles.stylesLoopS, Styles.stylesLoop]
      by_cases hs : strStarts sid "_"
      · rw [if_pos hs, if_pos hs, ih]
      · rw [if_neg hs, if_neg hs, validate_styleS_id, ih]

theorem validate_fileS_id (fname : String) (c : Styles.SContent) :
    Styles.validate_fileS (fun l => l) fname c = Styles.validate_file fname c := by
  cases c with
  | jsonError m => rfl
  | value v =>
      cases v <;> simp only [Styles.validate_fileS, Styles.validate_file, stylesLoopS_id]

theorem styleFilesLoopS_id :
    ∀ fs, Styles.styleFilesLoopS (fun l => l) fs = Styles.styleFilesLoop fs := by
  intro fs
  induction fs with
  | nil => rfl
  | cons p rest ih =>
      obtain ⟨n, c⟩ := p
      simp only [Styles.styleFilesLoopS, Styles.styleFilesLoop, validate_fileS_id, ih]

theorem styleMainS_id (files : List (String × Styles.SContent)) :
    Styles.styleMainS (fun l => l) files = Styles.styleMain files := by
  unfold Styles.styleMainS Styles.styleMain
  by_cases he : files.isEmpty
  · rw [if_pos he, if_pos he]
  · rw [if_neg he, if_neg he, styleFilesLoopS_id]

theorem validate_transformS_shape (σ1 σ2 : List String → List String)
    (t : Yaml) (p f : String) :
    Except.map (List.map Styles.eraseMsg) (Styles.validate_transformS σ1 t p f)
      = Except.map (List.map Styles.eraseMsg) (Styles.validate_transformS σ2 t p f) := by
  cases t with
  | map tm =>
      simp only [Styles.validate_transformS, bind, Except.bind]
      cases hk : getKey? tm "type" with
      | none => rfl
      | some tv =>
          dsimp only
          cases hn : pyNotInStrSet tv Styles.VALID_TRANSFORM_TYPES with
          | error e => rfl
          | ok nb => cases nb <;> rfl
  | null => rfl
  | bool b => rfl
  | int n => rfl
  | str s => rfl
  | list l => rfl

theorem validate_color_by_speedS_shape (σ1 σ2 : List String → List String)
    (c : Yaml) (p f : String) :
    Except.map (List.map Styles.eraseMsg) (Styles.validate_color_by_speedS σ1 c p f)
      = Except.map (List.map Styles.eraseMsg) (Styles.validate_color_by_speedS σ2 c p f) := by
  cases c with
  | map cm =>
      simp only [Styles.validate_color_by_speedS, bind, Except.bind]
      cases hk : getKey? cm "interpolation" with
      | none => rfl
      | some iv =>
          dsimp only
          cases hn : pyNotInStrSet iv Styles.VALID_INTERPOLATION_TYPES with
          | error e => rfl
          | ok nb =>
              cases nb
              · rfl
              · simp only [pure, Except.pure, Except.map, List.map_append]
                rfl
  | null => rfl
  | bool b => rfl
  | int n => rfl
  | str s => rfl
  | list l => rfl

theorem validate_style_specificS_shape (σ1 σ2 : List String → List String)
    (st : List (String × Yaml)) (ty : Yaml) (p f : String) :
    Except.map (List.map Styles.eraseMsg) (Styles.validate_style_specificS σ1 st ty p f)
      = Except.map (List.map Styles.eraseMsg) (Styles.validate_style_specificS σ2 st ty p f) := by
  unfold Styles.validate_style_specificS
  by_cases h1 : (pyEq ty (.str "gradient") || pyEq ty (.str "filled_contour")) = true
  · rw [if_pos h1, if_pos h1]
    simp only [bind, Except.bind]
    cases hi : getKey? st "interpolation" with
    | none =>
        dsimp only
        cases ho : getKey? st "out_of_range" with
        | none => rfl
        | some ov =>
            dsimp only
            cases hn : pyNotInStrSet ov Styles.VALID_OUT_OF_RANGE_TYPES with
            | error e => rfl
            | ok nb =>
                cases nb
                · rfl
                · simp only [pure, Except.pure, Except.map, List.map_append]
                  rfl
    | some iv =>
        dsimp only
        cases hn : pyNotInStrSet iv Styles.VALID_INTERPOLATION_TYPES with
        | error e => rfl
        | ok nb =>
            cases nb
            · dsimp only
              cases ho : getKey? st "out_of_range" with
              | none => rfl
              | some ov =>
                  dsimp only
                  cases hn2 : pyNotInStrSet ov Styles.VALID_OUT_OF_RANGE_TYPES with
                  | error e => rfl
                  | ok nb2 =>
                      cases nb2
                      · rfl
                      · simp only [pure, Except.pure, Except.map, List.map_append]
                        rfl
            · dsimp only
              cases ho : getKey? st "out_of_range" with
              | none =>
                  simp only [pure, Except.pure, Except.map, List.map_append]
                  rfl
              | some ov =>
                  dsimp only
                  cases hn2 : pyNotInStrSet ov Styles.VALID_OUT_OF_RANGE_TYPES with
                  | error e => rfl
                  | ok nb2 =>
                      cases nb2 <;>
                        · simp only [pure, Except.pure, Except.map, List.map_append]
                          rfl
  · rw [if_neg h1, if_neg h1]
    by_cases h2 : pyEq ty (.str "contour") = true
    · rw [if_pos h2, if_pos h2]
    · rw [if_neg h2, if_neg h2]
      by_cases h3 : (pyEq ty (.str "wind_barbs") || pyEq ty (.str "wind_arrows")) = true
      · rw [if_pos h3, if_pos h3]
        simp only [bind, Except.bind]
        cases hc : getKey? st "color_by_speed" with
        | none => rfl
        | some c =>
            dsimp only
            have hv := validate_color_by_speedS_shape σ1 σ2 c (p ++ ".color_by_speed") f
            cases hx : Styles.validate_color_by_speedS σ1 c (p ++ ".color_by_speed") f with
            | error e1 =>
                cases hy : Styles.validate_color_by_speedS σ2 c (p ++ ".color_by_speed") f with
                | error e2 => rw [hx, hy] at hv; simpa [Except.map, pure, Except.pure] using hv
                | ok l2 => rw [hx, hy] at hv; simp [Except.map, pure, Except.pure] at hv
            | ok l1 =>
                cases hy : Styles.validate_color_by_speedS σ2 c (p ++ ".color_by_speed") f with
                | error e2 => rw [hx, hy] at hv; simp [Except.map, pure, Except.pure] at hv
                | ok l2 =>
                    rw [hx, hy] at hv
                    simp only [Except.map, Except.ok.injEq] at hv
                    simp only [pure, Except.pure, Except.map, Except.ok.injEq,
                      List.map_append, hv]
      · rw [if_neg h3, if_neg h3]

theorem validate_styleS_shape (σ1 σ2 : List String → List String)
    (sid : String) (style : Yaml) (p f : String) :
    Except.map (List.map Styles.eraseMsg) (Styles.validate_styleS σ1 sid style p f)
      = Except.map (List.map Styles.eraseMsg) (Styles.validate_styleS σ2 sid style p f) := by
  cases style with
  | null => rfl
  | bool b => rfl
  | int n => rfl
  | str s => rfl
  | list l => rfl
  | map st =>
      simp only [Styles.validate_styleS, bind, Except.bind]
      cases hk : getKey? st "type" with
      | none => rfl
      | some ty =>
          dsimp only
          cases hn : pyNotInStrSet ty Styles.VALID_STYLE_TYPES with
          | error e => rfl
          | ok nb =>
              dsimp only
              cases nb
              · -- a known type: the long tail, differing only through
                -- the seeded transform and type-specific calls
                simp only [Bool.false_eq_true, if_false]
                have hsp := validate_style_specificS_shape σ1 σ2 st ty p f
                cases ht : getKey? st "transform" with
                | none =>
                    dsimp only
                    cases hx : Styles.validate_style_specificS σ1 st ty p f with
                    | error e1 =>
                        cases hy : Styles.validate_style_specificS σ2 st ty p f with
                        | error e2 => rw [hx, hy] at hsp; simpa [Except.map, pure, Except.pure] using hsp
                        | ok s2 => rw [hx, hy] at hsp; simp [Except.map, pure, Except.pure] at hsp
                    | ok s1 =>
                        cases hy : Styles.validate_style_specificS σ2 st ty p f with
                        | error e2 => rw [hx, hy] at hsp; simp [Except.map, pure, Except.pure] at hsp
                        | ok s2 =>
                            rw [hx, hy] at hsp
                            simp only [Except.map, Except.ok.injEq] at hsp
                            simp only [pure, Except.pure, Except.map, Except.ok.injEq,
                              List.map_append, hsp]
                | some t =>
                    dsimp only
                    have htr := validate_transformS_shape σ1 σ2 t (p ++ ".transform") f
                    cases hx : Styles.validate_transformS σ1 t (p ++ ".transform") f with
                    | error e1 =>
                        cases hy : Styles.validate_transformS σ2 t (p ++ ".transform") f with
                        | error e2 => rw [hx, hy] at htr; simpa [Except.map, pure, Except.pure] using htr
                        | ok l2 => rw [hx, hy] at htr; simp [Except.map, pure, Except.pure] at htr
                    | ok l1 =>
                        cases hy : Styles.validate_transformS σ2 t (p ++ ".transform") f with
                        | error e2 => rw [hx, hy] at htr; simp [Except.map, pure, Except.pure] at htr
                        | ok l2 =>
                            rw [hx, hy] at htr
                            simp only [Except.map, Except.ok.injEq] at htr
                            dsimp only
                            cases hx2 : Styles.validate_style_specificS σ1 st ty p f with
                            | error e1 =>
                                cases hy2 : Styles.validate_style_specificS σ2 st ty p f with
                                | error e2 =>
                                    rw [hx2, hy2] at hsp; simpa [Except.map, pure, Except.pure] using hsp
                                | ok s2 => rw [hx2, hy2] at hsp; simp [Except.map, pure, Except.pure] at hsp
                            | ok s1 =>
                                cases hy2 : Styles.validate_style_specificS σ2 st ty p f with
                                | error e2 => rw [hx2, hy2] at hsp; simp [Except.map, pure, Except.pure] at hsp
                                | ok s2 =>
                                    rw [hx2, hy2] at hsp
                                    simp only [Except.map, Except.ok.injEq] at hsp
                                    simp only [pure, Except.pure, Except.map,
                                      Except.ok.injEq, List.map_append, htr, hsp]
              · rfl

theorem stylesLoopS_shape (σ1 σ2 : List String → List String) (file : String) :
    ∀ l, Except.map (List.map Styles.eraseMsg) (Styles.stylesLoopS σ1 file l)
      = Except.map (List.map Styles.eraseMsg) (Styles.stylesLoopS σ2 file l) := by
  intro l
  induction l with
  | nil => rfl
  | cons q rest ih =>
      obtain ⟨sid, st⟩ := q
      simp only [Styles.stylesLoopS, bind, Except.bind]
      by_cases hs : strStarts sid "_"
      · rw [if_pos hs, if_pos hs]; exact ih
      · rw [if_neg hs, if_neg hs]
        have hv := validate_styleS_shape σ1 σ2 sid st ("styles." ++ sid) file
        cases hx : Styles.validate_styleS σ1 sid st ("styles." ++ sid) file with
        | error e1 =>
            cases hy : Styles.validate_styleS σ2 sid st ("styles." ++ sid) file with
            | error e2 => rw [hx, hy] at hv; simpa [Except.map, pure, Except.pure] using hv
            | ok l2 => rw [hx, hy] at hv; simp [Except.map, pure, Except.pure] at hv
        | ok l1 =>
            cases hy : Styles.validate_styleS σ2 sid st ("styles." ++ sid) file with
            | error e2 => rw [hx, hy] at hv; simp [Except.map, pure, Except.pure] at hv
            | ok l2 =>
                rw [hx, hy] at hv
                simp only [Except.map, Except.ok.injEq] at hv
                dsimp only
                cases hrx : Styles.stylesLoopS σ1 file rest with
                | error e1 =>
                    cases hry : Styles.stylesLoopS σ2 file rest with
                    | error e2 =>
                        rw [hrx, hry] at ih; simpa [Except.map, pure, Except.pure] using ih
                    | ok r2 => rw [hrx, hry] at ih; simp [Except.map, pure, Except.pure] at ih
                | ok r1 =>
                    cases hry : Styles.stylesLoopS σ2 file rest with
                    | error e2 => rw [hrx, hry] at ih; simp [Except.map, pure, Except.pure] at ih
                    | ok r2 =>
                        rw [hrx, hry] at ih
                        simp only [Except.map, Except.ok.injEq] at ih
                        simp only [pure, Except.pure, Except.map, Except.ok.injEq,
                          List.map_append, hv, ih]

theorem validate_fileS_shape (σ1 σ2 : List String → List String)
    (fname : String) (c : Styles.SContent) :
    Except.map (List.map Styles.eraseMsg) (Styles.validate_fileS σ1 fname c)
      = Except.map (List.map Styles.eraseMsg) (Styles.validate_fileS σ2 fname c) := by
  cases c with
  | jsonError m => rfl
  | value v =>
      cases v with
      | null => rfl
      | bool b => rfl
      | int n => rfl
      | str s => rfl
      | list l => rfl
      | map data =>
          simp only [Styles.validate_fileS, bind, Except.bind]
          cases hsv : getKey? data "styles" with
          | none => rfl
          | some sv =>
              dsimp only
              cases sv with
              | null => rfl
              | bool b => rfl
              | int n => rfl
              | str s => rfl
              | list l => rfl
              | map styles =>
                  dsimp only
                  have hv := stylesLoopS_shape σ1 σ2 fname styles
                  cases hx : Styles.stylesLoopS σ1 fname styles with
                  | error e1 =>
                      cases hy : Styles.stylesLoopS σ2 fname styles with
                      | error e2 =>
                          rw [hx, hy] at hv; simpa [Except.map, pure, Except.pure] using hv
                      | ok l2 => rw [hx, hy] at hv; simp [Except.map, pure, Except.pure] at hv
                  | ok l1 =>
                      cases hy : Styles.stylesLoopS σ2 fname styles with
                      | error e2 => rw [hx, hy] at hv; simp [Except.map, pure, Except.pure] at hv
                      | ok l2 =>
                          rw [hx, hy] at hv
                          simp only [Except.map, Except.ok.injEq] at hv
                          simp only [pure, Except.pure, Except.map, Except.ok.injEq,
                            List.map_append, hv]

theorem styleFilesLoopS_shape (σ1 σ2 : List String → List String) :
    ∀ fs, Except.map (List.map (List.map Styles.eraseMsg)) (Styles.styleFilesLoopS σ1 fs)
      = Except.map (List.map (List.map Styles.eraseMsg)) (Styles.styleFilesLoopS σ2 fs) := by
  intro fs
  induction fs with
  | nil => rfl
  | cons q rest ih =>
      obtain ⟨n, c⟩ := q
      simp only [Styles.styleFilesLoopS, bind, Except.bind]
      have hv := validate_fileS_shape σ1 σ2 n c
      cases hx : Styles.validate_fileS σ1 n c with
      | error e1 =>
          cases hy : Styles.validate_fileS σ2 n c with
          | error e2 => rw [hx, hy] at hv; simpa [Except.map, pure, Except.pure] using hv
          | ok l2 => rw [hx, hy] at hv; simp [Except.map, pure, Except.pure] at hv
      | ok l1 =>
          cases hy : Styles.validate_fileS σ2 n c with
          | error e2 => rw [hx, hy] at hv; simp [Except.map, pure, Except.pure] at hv
          | ok l2 =>
              rw [hx, hy] at hv
              simp only [Except.map, Except.ok.injEq] at hv
              dsimp only
              cases hrx : Styles.styleFilesLoopS σ1 rest with
              | error e1 =>
                  cases hry : Styles.styleFilesLoopS σ2 rest with
                  | error e2 =>
                      rw [hrx, hry] at ih; simpa [Except.map, pure, Except.pure] using ih
                  | ok r2 => rw [hrx, hry] at ih; simp [Except.map, pure, Except.pure] at ih
              | ok r1 =>
                  cases hry : Styles.styleFilesLoopS σ2 rest with
                  | error e2 => rw [hrx, hry] at ih; simp [Except.map, pure, Except.pure] at ih
                  | ok r2 =>
                      rw [hrx, hry] at ih
                      simp only [Except.map, Except.ok.injEq] at ih
                      simp only [pure, Except.pure, Except.map, Except.ok.injEq,
                        List.map_cons, hv, ih]

theorem map_eq_isEmpty {α β : Type} (f : α → β) (a b : List α)
    (h : a.map f = b.map f) : a.isEmpty = b.isEmpty := by
  cases a <;> cases b <;> simp_all

theorem map_flatten_erase (L : List (List Styles.SErr)) :
    (L.flatten).map Styles.eraseMsg = (L.map (List.map Styles.eraseMsg)).flatten := by
  induction L with
  | nil => rfl
  | cons a as ih => simp [List.map_append, ih]

theorem erased_filter_length :
    ∀ (L1 L2 : List (List Styles.SErr)),
      L1.map (List.map Styles.eraseMsg) = L2.map (List.map Styles.eraseMsg) →
      (L1.filter (fun l => !l.isEmpty)).length
        = (L2.filter (fun l => !l.isEmpty)).length := by
  intro L1
  induction L1 with
  | nil =>
      intro L2 h
      cases L2 with
      | nil => rfl
      | cons b bs => simp at h
  | cons a as ih =>
      intro L2 h
      cases L2 with
      | nil => simp at h
      | cons b bs =>
          simp only [List.map_cons, List.cons.injEq] at h
          obtain ⟨h1, h2⟩ := h
          have he : a.isEmpty = b.isEmpty := map_eq_isEmpty _ a b h1
          simp only [List.filter_cons, he]
          cases hb : b.isEmpty <;> simp [ih bs h2]

/-- Claim C8.  Amended: each validator run is a pure function of its input
files together with the process's hash-seed-determined set iteration order
`σ`, so re-running within one process is reproducible; and across processes
(any `σ1`, `σ2`) the style validator's runs agree on everything except
message text — the attributed error list (file and path of every error),
the count of files with errors, and the exit code coincide.  Identical
error *text* across processes fails (see the counterexample): five style
messages interpolate set constants in hash-seed order.  With the
declaration order `σ = fun l => l` the seeded model is the fixed-order
embedding `styleMain`. -/
theorem validators_deterministic_up_to_set_order
    (σ1 σ2 : List String → List String) (files : List (String × Styles.SContent)) :
    Except.map Styles.runShape (Styles.styleMainS σ1 files)
        = Except.map Styles.runShape (Styles.styleMainS σ2 files)
      ∧ Styles.styleMainS (fun l => l) files = Styles.styleMain files := by
  refine ⟨?_, styleMainS_id files⟩
  unfold Styles.styleMainS
  by_cases he : files.isEmpty
  · rw [if_pos he, if_pos he]
  · rw [if_neg he, if_neg he]
    simp only [bind, Except.bind]
    have h := styleFilesLoopS_shape σ1 σ2 files
    cases hx : Styles.styleFilesLoopS σ1 files with
    | error e1 =>
        cases hy : Styles.styleFilesLoopS σ2 files with
        | error e2 => rw [hx, hy] at h; simpa [Except.map, pure, Except.pure] using h
        | ok L2 => rw [hx, hy] at h; simp [Except.map, pure, Except.pure] at h
    | ok L1 =>
        cases hy : Styles.styleFilesLoopS σ2 files with
        | error e2 => rw [hx, hy] at h; simp [Except.map, pure, Except.pure] at h
        | ok L2 =>
            rw [hx, hy] at h
            simp only [Except.map, Except.ok.injEq] at h
            have hfl : (L1.flatten).map Styles.eraseMsg
                = (L2.flatten).map Styles.eraseMsg := by
              rw [map_flatten_erase, map_flatten_erase, h]
            simp only [pure, Except.pure, Except.map, Except.ok.injEq, Styles.runShape,
              Prod.mk.injEq]
            refine ⟨hfl, erased_filter_length L1 L2 h, ?_⟩
            rw [map_eq_isEmpty Styles.eraseMsg L1.flatten L2.flatten hfl]

/-- Claim C8 counterexample: a process whose hash seed renders
`VALID_STYLE_TYPES` in declaration order and one rendering it in reversed
order — both iteration orders of the same set — report the same unknown
style type with different error message text, so two runs of the style
validator on the same unchanged input need not print identical errors.
The two runs differ only in message text: their shapes (error
attributions, file counts, exit codes) coincide, and the
declaration-order run is the fixed-order model's run. -/
theorem styles_set_order_cex :
    List.Perm (Styles.VALID_STYLE_TYPES.reverse) Styles.VALID_STYLE_TYPES
    ∧ Styles.runMsgs (Styles.styleMainS (fun l => l) [Styles.cexSeedFile])
        ≠ Styles.runMsgs (Styles.styleMainS (fun l => l.reverse) [Styles.cexSeedFile])
    ∧ Styles.styleMainS (fun l => l) [Styles.cexSeedFile]
        ≠ Styles.styleMainS (fun l => l.reverse) [Styles.cexSeedFile]
    ∧ Except.map Styles.runShape (Styles.styleMainS (fun l => l) [Styles.cexSeedFile])
        = Except.map Styles.runShape
            (Styles.styleMainS (fun l => l.reverse) [Styles.cexSeedFile])
    ∧ Styles.styleMainS (fun l => l) [Styles.cexSeedFile]
        = Styles.styleMain [Styles.cexSeedFile] := by
  have hmsg : Styles.runMsgs (Styles.styleMainS (fun l => l) [Styles.cexSeedFile])
      ≠ Styles.runMsgs (Styles.styleMainS (fun l => l.reverse) [Styles.cexSeedFile]) := by
    decide
  exact ⟨List.reverse_perm _, hmsg, fun h => hmsg (congrArg Styles.runMsgs h),
    rfl, styleMainS_id _⟩
